import Mathlib

/-!
Verification of the aspect/pattern-detection and house-placement core of the
woflstrology repository (reference file: src/woflstrology-v0.3.4.py).

Shallow embedding conventions:
* Python floats are idealised as exact rationals (`ℚ`) in the geometric core,
  and as real numbers (`ℝ`) in the trigonometric orbital propagator.
* A Python dict of body positions (name → data, insertion-ordered, unique
  keys) is embedded as an association list `List (String × ℚ)` pairing a body
  name with its ecliptic longitude; the stored `"sign"` field of a position is
  always `get_zodiac_sign` of its longitude in the source, so sign lookups are
  embedded as that composition.
* Python `%` on numbers (sign of the divisor) is `pymod`; Python `int()`
  (truncation toward zero) is `pytrunc`.
* Fallible code (exceptions caught and turned into `None`, `ZeroDivisionError`)
  is embedded with `Option` / `Except`.
-/

/-- `ZODIAC_SIGNS` table (module constant of the source). -/
def ZODIAC_SIGNS : List String :=
  ["Aries", "Taurus", "Gemini", "Cancer",
   "Leo", "Virgo", "Libra", "Scorpio",
   "Sagittarius", "Capricorn", "Aquarius", "Pisces"]

/-- `ELEMENTS` table: element → signs of that element. -/
def ELEMENTS : List (String × List String) :=
  [("Fire", ["Aries", "Leo", "Sagittarius"]),
   ("Earth", ["Taurus", "Virgo", "Capricorn"]),
   ("Air", ["Gemini", "Libra", "Aquarius"]),
   ("Water", ["Cancer", "Scorpio", "Pisces"])]

/-- `RULERSHIPS` table: planet → signs it rules. -/
def RULERSHIPS : List (String × List String) :=
  [("Sun", ["Leo"]),
   ("Moon", ["Cancer"]),
   ("Mercury", ["Gemini", "Virgo"]),
   ("Venus", ["Taurus", "Libra"]),
   ("Mars", ["Aries", "Scorpio"]),
   ("Jupiter", ["Sagittarius", "Pisces"]),
   ("Saturn", ["Capricorn", "Aquarius"]),
   ("Uranus", ["Aquarius"]),
   ("Neptune", ["Pisces"]),
   ("Pluto", ["Scorpio"])]

/-- Python `int(q)`: truncation toward zero. -/
def pytrunc (q : ℚ) : ℤ := if q < 0 then ⌈q⌉ else ⌊q⌋

/-- Python `x % m` on numbers: the result has the sign of the divisor
(`x - m * floor (x / m)`). -/
def pymod (x m : ℚ) : ℚ := x - m * ⌊x / m⌋

/-- `get_zodiac_sign(longitude)`: `ZODIAC_SIGNS[int(longitude / 30.0) % 12]`.
Note the source uses Python `int()` (truncation toward zero), not `floor`. -/
def get_zodiac_sign (longitude : ℚ) : String :=
  ZODIAC_SIGNS.getD ((pytrunc (longitude / 30)) % 12).toNat ""

/-- `get_element(sign)`: first `ELEMENTS` entry whose sign list contains
`sign`, else `"Unknown"`. -/
def get_element (sign : String) : String :=
  ((ELEMENTS.find? fun e => decide (sign ∈ e.2)).map Prod.fst).getD "Unknown"

/-- `calculate_aspect_angle(long1, long2)`:
`diff = abs(long1 - long2); if diff > 180: diff = 360 - diff`. -/
def calculate_aspect_angle (long1 long2 : ℚ) : ℚ :=
  let diff := |long1 - long2|
  if diff > 180 then 360 - diff else diff

/-- The `aspect_types` table of `detect_aspects`: (name, target angle, orb). -/
def aspect_types : List (String × ℚ × ℚ) :=
  [("conjunction", 0, 8),
   ("opposition", 180, 8),
   ("trine", 120, 8),
   ("square", 90, 8),
   ("sextile", 60, 6)]

/-- The inner loop of `detect_aspects`: the first aspect-table entry whose
`|angle - target| ≤ orb` (the `break` makes it first-match-only). -/
def firstAspectType (angle : ℚ) : Option (String × ℚ × ℚ) :=
  aspect_types.find? fun t => decide (|angle - t.2.1| ≤ t.2.2)

/-- The ordered pairs produced by
`for i, p1 in enumerate(l): for p2 in l[i+1:]`. -/
def pairsAfter {α : Type} : List α → List (α × α)
  | [] => []
  | p :: rest => (rest.map fun q => (p, q)) ++ pairsAfter rest

/-- An aspect record as appended by `detect_aspects`. -/
structure Aspect where
  type : String
  planet1 : String
  planet2 : String
  angle : ℚ
  deriving DecidableEq, Repr

/-- `detect_aspects(natal_positions)`: for each pair of distinct planets (in
dict order), record the first matching aspect type, if any. -/
def detect_aspects (ps : List (String × ℚ)) : List Aspect :=
  (pairsAfter ps).filterMap fun pq =>
    let angle := calculate_aspect_angle pq.1.2 pq.2.2
    (firstAspectType angle).map fun t => ⟨t.1, pq.1.1, pq.2.1, angle⟩

/-- Whether an aspect record is about the unordered body pair `{A, B}`. -/
def pairNames (A B : String) (a : Aspect) : Bool :=
  decide ((a.planet1 = A ∧ a.planet2 = B) ∨ (a.planet1 = B ∧ a.planet2 = A))

/-- One membership test of `find_house_for_planet`'s loop body, for house `n`
(`cur`/`nxt` are the `% 360`-normalised cusps of houses `n` and
`(n % 12) + 1`). -/
def houseMatch (pl : ℚ) (cusps : ℕ → ℚ) (n : ℕ) : Bool :=
  let cur := pymod (cusps n) 360
  let nxt := pymod (cusps ((n % 12) + 1)) 360
  if cur < nxt then decide (cur ≤ pl ∧ pl < nxt)
  else decide (pl ≥ cur ∨ pl < nxt)

/-- The `for house_num in range(1, 13)` loop of `find_house_for_planet`,
returning on the first match, with fallback result 1. -/
def houseGo (pl : ℚ) (cusps : ℕ → ℚ) : ℕ → ℕ → ℕ
  | 0, _ => 1
  | fuel + 1, n => if houseMatch pl cusps n then n else houseGo pl cusps fuel (n + 1)

/-- `find_house_for_planet(planet_longitude, house_cusps)`; the cusp dict
(keys 1..12) is embedded as a function on house numbers. -/
def find_house_for_planet (planet_longitude : ℚ) (cusps : ℕ → ℚ) : ℕ :=
  houseGo (pymod planet_longitude 360) cusps 12 1

/-- An equal-house system with cusps at 0, 30, 60, …, 330. -/
def equalCusps : ℕ → ℚ := fun n => 30 * ((n : ℚ) - 1)

/-- Spec formula for the shortest-arc separation (§4.1 of the spec):
`d = |a-b| mod 360; return d>180 ? 360-d : d`. -/
def shortestArcSpec (a b : ℚ) : ℚ :=
  let d := pymod |a - b| 360
  if d > 180 then 360 - d else d

/-- The `planets_in_aspect(p1, p2, target, orb)` helper of
`detect_chart_patterns`, applied to two (name, longitude) entries. -/
def planets_in_aspect (p q : String × ℚ) (target orb : ℚ) : Bool :=
  decide (|calculate_aspect_angle p.2 q.2 - target| ≤ orb)

/-- The ordered triples produced by the three nested
`enumerate(planet_list)` loops with `j > i`, `k > j`. -/
def triplesAfter {α : Type} : List α → List (α × α × α)
  | [] => []
  | p :: rest => ((pairsAfter rest).map fun qr => (p, qr.1, qr.2)) ++ triplesAfter rest

/-- `collections.Counter` key order: first-occurrence order of the values. -/
def counterKeys (l : List String) : List String :=
  l.foldl (fun acc s => if s ∈ acc then acc else acc ++ [s]) []

/-- Lexicographic char-list comparison by Unicode code point, as Python's
`sorted` uses on strings. -/
def charsLe : List Char → List Char → Bool
  | [], _ => true
  | _ :: _, [] => false
  | a :: as, b :: bs =>
    if a.toNat < b.toNat then true
    else if b.toNat < a.toNat then false
    else charsLe as bs

/-- Insert a string into a sorted list (Python `sorted`, ascending). -/
def insertSorted (s : String) : List String → List String
  | [] => [s]
  | t :: ts => if charsLe s.toList t.toList then s :: t :: ts else t :: insertSorted s ts

/-- Python `sorted` on a list of strings. -/
def pysorted (l : List String) : List String := l.foldr insertSorted []

/-- A chart-pattern record as appended by `detect_chart_patterns`; the Python
dicts have heterogeneous keys, embedded as optional fields. -/
structure Pattern where
  type : String
  planets : List String
  apex : Option String := none
  element : Option String := none
  sign : Option String := none
  deriving DecidableEq, Repr

/-- `max(set(elements), key=elements.count)` for the grand-trine element.
Python iterates a hash-ordered set; embedded as first-occurrence order (the
spec's reading), keeping the first maximum of a strict-greater scan. -/
def dominantElement (els : List String) : String :=
  match counterKeys els with
  | [] => ""
  | x :: xs => xs.foldl (fun best s => if els.count best < els.count s then s else best) x

/-- The grand-trine section: every index-ordered triple mutually in trine
(120°, orb 8) is appended, with no dedupe. -/
def grand_trines (ps : List (String × ℚ)) : List Pattern :=
  (triplesAfter ps).filterMap fun t =>
    if planets_in_aspect t.1 t.2.1 120 8 && planets_in_aspect t.2.1 t.2.2 120 8 &&
        planets_in_aspect t.1 t.2.2 120 8 then
      some { type := "grand_trine", planets := [t.1.1, t.2.1.1, t.2.2.1],
             element := some (dominantElement
               ([t.1, t.2.1, t.2.2].map fun p => get_element (get_zodiac_sign p.2))) }
    else none

/-- The grand-cross candidate name lists, in enumeration order: an
index-ordered opposition pair (p1,p2), then any p3 ∉ {p1,p2} square p1, then
any p4 ∉ {p1,p2,p3} square p2 and opposite p3. -/
def gcCandidates (ps : List (String × ℚ)) : List (List String) :=
  (pairsAfter ps).flatMap fun pq =>
    if planets_in_aspect pq.1 pq.2 180 8 then
      ps.flatMap fun p3 =>
        if p3.1 ≠ pq.1.1 ∧ p3.1 ≠ pq.2.1 ∧ planets_in_aspect pq.1 p3 90 8 then
          ps.filterMap fun p4 =>
            if p4.1 ≠ pq.1.1 ∧ p4.1 ≠ pq.2.1 ∧ p4.1 ≠ p3.1 ∧
                planets_in_aspect pq.2 p4 90 8 = true ∧ planets_in_aspect p3 p4 180 8 = true then
              some [pq.1.1, pq.2.1, p3.1, p4.1]
            else none
        else []
    else []

/-- Append the grand-cross patterns to the accumulated list, skipping a
candidate when a `"grand_cross"` pattern with the same sorted 4-body set was
already appended. -/
def addGrandCrosses (ps : List (String × ℚ)) (acc : List Pattern) : List Pattern :=
  (gcCandidates ps).foldl
    (fun acc cand =>
      if acc.any fun p => p.type == "grand_cross" && pysorted p.planets == pysorted cand then acc
      else acc ++ [{ type := "grand_cross", planets := cand }])
    acc

/-- The t-square candidates `(p1, p2, apex)`, in enumeration order. -/
def tsCandidates (ps : List (String × ℚ)) : List (String × String × String) :=
  (pairsAfter ps).flatMap fun pq =>
    if planets_in_aspect pq.1 pq.2 180 8 then
      ps.filterMap fun apex =>
        if apex.1 ≠ pq.1.1 ∧ apex.1 ≠ pq.2.1 ∧
            planets_in_aspect pq.1 apex 90 8 = true ∧ planets_in_aspect pq.2 apex 90 8 = true then
          some (pq.1.1, pq.2.1, apex.1)
        else none
    else []

/-- Append the t-square patterns with the source's (ineffective, see the
2-vs-3-element comparison) sorted-planets dedupe, verbatim. -/
def addTSquares (ps : List (String × ℚ)) (acc : List Pattern) : List Pattern :=
  (tsCandidates ps).foldl
    (fun acc c =>
      if acc.any fun p =>
          p.type == "t_square" && pysorted p.planets == pysorted [c.1, c.2.1, c.2.2] then acc
      else acc ++ [{ type := "t_square", planets := [c.1, c.2.1], apex := some c.2.2 }])
    acc

/-- The stellium section: for each sign in Counter order with ≥ 3 occupants,
append one pattern listing all bodies in that sign. -/
def stelliums (ps : List (String × ℚ)) : List Pattern :=
  (counterKeys (ps.map fun p => get_zodiac_sign p.2)).filterMap fun s =>
    if 3 ≤ (ps.map fun p => get_zodiac_sign p.2).count s then
      some { type := "stellium",
             planets := (ps.filter fun p => get_zodiac_sign p.2 == s).map Prod.fst,
             sign := some s }
    else none

/-- The yod candidates `(p1, p2, apex)`: sextile pair, both quincunx
(150°, orb 3) to the apex. -/
def yodCandidates (ps : List (String × ℚ)) : List (String × String × String) :=
  (pairsAfter ps).flatMap fun pq =>
    if planets_in_aspect pq.1 pq.2 60 6 then
      ps.filterMap fun apex =>
        if apex.1 ≠ pq.1.1 ∧ apex.1 ≠ pq.2.1 ∧
            planets_in_aspect pq.1 apex 150 3 = true ∧ planets_in_aspect pq.2 apex 150 3 = true then
          some (pq.1.1, pq.2.1, apex.1)
        else none
    else []

/-- Append the yod patterns with the source's (ineffective) dedupe, verbatim. -/
def addYods (ps : List (String × ℚ)) (acc : List Pattern) : List Pattern :=
  (yodCandidates ps).foldl
    (fun acc c =>
      if acc.any fun p =>
          p.type == "yod" && pysorted p.planets == pysorted [c.1, c.2.1, c.2.2] then acc
      else acc ++ [{ type := "yod", planets := [c.1, c.2.1], apex := some c.2.2 }])
    acc

/-- `detect_chart_patterns(natal_positions)`: grand trines, grand crosses,
t-squares, stelliums, yods, appended to one list in source order. Each
section's dedupe filters the accumulated list by its own type tag, so the
sections compose sequentially exactly as the Python function does. -/
def detect_chart_patterns (ps : List (String × ℚ)) : List Pattern :=
  addYods ps (addTSquares ps (addGrandCrosses ps (grand_trines ps)) ++ stelliums ps)

/-- Python `a / b` on numbers: `ZeroDivisionError` when `b = 0`. -/
def pydiv (a b : ℚ) : Except String ℚ :=
  if b = 0 then .error "ZeroDivisionError" else .ok (a / b)

/-- A per-element (or per-modality) balance record: count, percentage, level. -/
structure BalanceEntry where
  name : String
  count : ℕ
  percentage : ℚ
  level : String
  deriving DecidableEq, Repr

/-- `calculate_elemental_balance(natal_positions)`: per element, count the
bodies, `percentage = count/total*100`, level `high` (>40) / `low` (<15) /
`balanced`. The division raises on an empty body collection. -/
def calculate_elemental_balance (ps : List (String × ℚ)) :
    Except String (List BalanceEntry) :=
  let elements := ps.map fun p => get_element (get_zodiac_sign p.2)
  let total : ℚ := (ps.length : ℚ)
  ["Fire", "Earth", "Air", "Water"].mapM fun el => do
    let count := elements.count el
    let ratio ← pydiv (count : ℚ) total
    let percentage := ratio * 100
    let level := if percentage > 40 then "high"
      else if percentage < 15 then "low" else "balanced"
    pure (BalanceEntry.mk el count percentage level)

/-- The local `modality_signs` table of `calculate_modality_balance`. -/
def modality_signs : List (String × List String) :=
  [("Cardinal", ["Aries", "Cancer", "Libra", "Capricorn"]),
   ("Fixed", ["Taurus", "Leo", "Scorpio", "Aquarius"]),
   ("Mutable", ["Gemini", "Virgo", "Sagittarius", "Pisces"])]

/-- `calculate_modality_balance(natal_positions)`: same structure with
thresholds `>40` high, `<20` low. -/
def calculate_modality_balance (ps : List (String × ℚ)) :
    Except String (List BalanceEntry) :=
  let modalities := ps.filterMap fun p =>
    (modality_signs.find? fun m => decide (get_zodiac_sign p.2 ∈ m.2)).map Prod.fst
  let total : ℚ := (ps.length : ℚ)
  ["Cardinal", "Fixed", "Mutable"].mapM fun m => do
    let count := modalities.count m
    let ratio ← pydiv (count : ℚ) total
    let percentage := ratio * 100
    let level := if percentage > 40 then "high"
      else if percentage < 20 then "low" else "balanced"
    pure (BalanceEntry.mk m count percentage level)

/-- `RULERSHIPS[p]` as an optional lookup (`p in RULERSHIPS` + indexing). -/
def rulershipOf (p : String) : Option (List String) :=
  (RULERSHIPS.find? fun r => r.1 == p).map Prod.snd

/-- Python `scores[k] += v` on an insertion-ordered dict embedded as an
association list: `none` models the `KeyError` raised when `k` is absent.
(With the unique keys of a dict, updating every matching entry coincides
with updating the single one.) -/
def dictIncr (d : List (String × ℕ)) (k : String) (v : ℕ) : Option (List (String × ℕ)) :=
  if d.any fun p => p.1 == k then
    some (d.map fun p => if p.1 == k then (p.1, p.2 + v) else p)
  else none

/-- Python `max(scores, key=scores.get)` paired with the looked-up score:
scan in dict order keeping the first entry of maximal value; raises
(`none`) on an empty dict. -/
def pymax : List (String × ℕ) → Option (String × ℕ)
  | [] => none
  | x :: xs => some (xs.foldl (fun best p => if best.2 < p.2 then p else best) x)

/-- The ascendant sign and cusp table that `calculate_dominant_planet` reads
from `house_data`. -/
structure HouseData where
  asc_sign : String
  cusps : ℕ → ℚ

/-- The angular houses `[1, 4, 7, 10]`. -/
def angular_houses : List ℕ := [1, 4, 7, 10]

/-- `calculate_dominant_planet(natal_positions, house_data)`: scores start at
0 per body; +5 to each `RULERSHIPS` planet ruling the Ascendant sign (a
`KeyError`, i.e. `none`, if such a planet is not a chart body); +3 for a body
in an angular house; +4 for a body in a sign it rules; +1 per aspect end;
then the first body of maximal score with its score. -/
def calculate_dominant_planet (ps : List (String × ℚ)) (hd : HouseData) :
    Option (String × ℕ) := do
  let s0 : List (String × ℕ) := ps.map fun p => (p.1, 0)
  let s1 ← RULERSHIPS.foldlM
    (fun d r => if hd.asc_sign ∈ r.2 then dictIncr d r.1 5 else some d) s0
  let s2 ← ps.foldlM
    (fun d p => if find_house_for_planet p.2 hd.cusps ∈ angular_houses then
        dictIncr d p.1 3
      else some d) s1
  let s3 ← ps.foldlM
    (fun d p => if get_zodiac_sign p.2 ∈ (rulershipOf p.1).getD [] then
        dictIncr d p.1 4
      else some d) s2
  let s4 ← (detect_aspects ps).foldlM
    (fun d a => do
      let d1 ← dictIncr d a.planet1 1
      dictIncr d1 a.planet2 1) s3
  pymax s4

/-- The number of detected aspects a body participates in. -/
def aspectCount (ps : List (String × ℚ)) (p : String) : ℕ :=
  ((detect_aspects ps).countP fun a => a.planet1 == p) +
    ((detect_aspects ps).countP fun a => a.planet2 == p)

/-- Closed form of the final score of body `p` at longitude `L`:
the sum 5 (rules the Ascendant) + 3 (angular house) + 4 (own sign) +
1-per-aspect that the loops of `calculate_dominant_planet` accumulate. -/
def planetScore (ps : List (String × ℚ)) (hd : HouseData) (p : String) (L : ℚ) : ℕ :=
  (if hd.asc_sign ∈ (rulershipOf p).getD [] then 5 else 0) +
    (if find_house_for_planet L hd.cusps ∈ angular_houses then 3 else 0) +
    (if get_zodiac_sign L ∈ (rulershipOf p).getD [] then 4 else 0) +
    aspectCount ps p

/-- A three-body demonstration chart: Mars rules the Aries Ascendant, sits in
its own sign Aries inside angular house 1, and is in trine with both Sun and
Moon. -/
def demoChart : List (String × ℚ) := [("Sun", 130), ("Moon", 250), ("Mars", 10)]

/-- House data for the demonstration chart: Aries rising, equal houses. -/
def demoHD : HouseData := ⟨"Aries", equalCusps⟩

/-- `math.radians`. -/
noncomputable def radR (x : ℝ) : ℝ := x * Real.pi / 180

/-- `math.degrees`. -/
noncomputable def degR (x : ℝ) : ℝ := x * 180 / Real.pi

/-- Python `x % m` on real numbers (sign of the divisor). -/
noncomputable def pymodR (x m : ℝ) : ℝ := x - m * ⌊x / m⌋

/-- `math.atan2(y, x)`: embedded as the complex argument of `x + y·i`
(both lie in `(-π, π]` with `atan2 0 0 = 0`). -/
noncomputable def atan2 (y x : ℝ) : ℝ := Complex.arg ⟨x, y⟩

/-- Python `int(q)` on a real number: truncation toward zero. -/
noncomputable def pytruncR (q : ℝ) : ℤ := if q < 0 then ⌈q⌉ else ⌊q⌋

/-- `get_zodiac_sign` applied to a real (float) longitude, as the asteroid
path does. -/
noncomputable def get_zodiac_sign_real (L : ℝ) : String :=
  ZODIAC_SIGNS.getD ((pytruncR (L / 30)) % 12).toNat ""

/-- The orbital-element record parsed from one `astorb.dat` line (angles in
degrees, `semi_major_axis` in AU); field values are exact rationals since
they come from decimal text. -/
structure OrbitalElements where
  epoch : ℚ
  mean_anomaly : ℚ
  arg_perihelion : ℚ
  long_asc_node : ℚ
  inclination : ℚ
  eccentricity : ℚ
  semi_major_axis : ℚ
  deriving DecidableEq, Repr

/-- The Gaussian gravitational constant `k = 0.01720209895` (AU/day). -/
noncomputable def kGauss : ℝ := 0.01720209895

/-- One Newton–Raphson step for Kepler's equation `E - e sin E = M`. -/
noncomputable def newtonStep (e M E : ℝ) : ℝ :=
  E - (E - e * Real.sin E - M) / (1 - e * Real.cos E)

/-- The `for iteration in range(10)` Newton loop: a vanishing denominator is
a `ZeroDivisionError` (`none`); on `|E_new - E| < 1e-8` the loop breaks
keeping the previous `E`; otherwise it continues with `E_new`. -/
noncomputable def newtonLoop (e M : ℝ) : ℕ → ℝ → Option ℝ
  | 0, E => some E
  | fuel + 1, E =>
    if 1 - e * Real.cos E = 0 then none
    else
      let Enew := newtonStep e M E
      if |Enew - E| < 1e-8 then some E else newtonLoop e M fuel Enew

/-- `calculate_position_from_elements(jd, elements)`: two-body Keplerian
propagation to an ecliptic longitude in `[0, 360)`. Exceptions the source
catches (returning `None`) are the `a ≤ 0` mean-motion square root /
division, a vanishing Newton denominator, and the `sqrt(1±e)` domain
(`e < -1` or `e > 1`); floats are idealised as reals. -/
noncomputable def calculate_position_from_elements (jd : ℝ) (el : OrbitalElements) :
    Option ℝ :=
  let M0 := radR (el.mean_anomaly : ℝ)
  let omega := radR (el.arg_perihelion : ℝ)
  let Omega := radR (el.long_asc_node : ℝ)
  let i := radR (el.inclination : ℝ)
  let e : ℝ := (el.eccentricity : ℝ)
  let a : ℝ := (el.semi_major_axis : ℝ)
  if a ≤ 0 then none
  else
    let n := Real.sqrt (kGauss * kGauss / (a * a * a))
    let M := pymodR (M0 + n * (jd - (el.epoch : ℝ))) (2 * Real.pi)
    match newtonLoop e M 10 M with
    | none => none
    | some E =>
      if e < -1 ∨ 1 < e then none
      else
        let nu := 2 * atan2 (Real.sqrt (1 + e) * Real.sin (E / 2))
          (Real.sqrt (1 - e) * Real.cos (E / 2))
        let r := a * (1 - e * Real.cos E)
        let x_orb := r * Real.cos nu
        let y_orb := r * Real.sin nu
        let x1 := x_orb * Real.cos omega - y_orb * Real.sin omega
        let y1 := x_orb * Real.sin omega + y_orb * Real.cos omega
        let x2 := x1
        let y2 := y1 * Real.cos i
        let x_ecl := x2 * Real.cos Omega - y2 * Real.sin Omega
        let y_ecl := x2 * Real.sin Omega + y2 * Real.cos Omega
        let lng := degR (atan2 y_ecl x_ecl)
        some (if lng < 0 then lng + 360 else lng)

/-- Python slice `s[a:b]`. -/
def strSlice (s : String) (a b : ℕ) : String := ⟨(s.toList.drop a).take (b - a)⟩

/-- Digit characters to the natural number they denote. -/
def digitsToNat (cs : List Char) : ℕ :=
  cs.foldl (fun n c => 10 * n + (c.toNat - '0'.toNat)) 0

/-- Python `int(s)` on a stripped string (optional sign, digits). -/
def pyInt (s : String) : Option ℤ :=
  match s.toList with
  | '-' :: cs => if cs ≠ [] ∧ cs.all Char.isDigit then some (-(digitsToNat cs : ℤ)) else none
  | '+' :: cs => if cs ≠ [] ∧ cs.all Char.isDigit then some ((digitsToNat cs : ℤ)) else none
  | cs => if cs ≠ [] ∧ cs.all Char.isDigit then some ((digitsToNat cs : ℤ)) else none

/-- Split a char list at the first `e`/`E` (exponent marker). -/
def splitOnExp : List Char → List Char × Option (List Char)
  | [] => ([], none)
  | c :: cs =>
    if c = 'e' ∨ c = 'E' then ([], some cs)
    else
      let me := splitOnExp cs
      (c :: me.1, me.2)

/-- Strip an optional leading sign, returning (isNegative, rest). -/
def parseSign : List Char → Bool × List Char
  | '-' :: cs => (true, cs)
  | '+' :: cs => (false, cs)
  | cs => (false, cs)

/-- Split a char list at the first `.`; `none` if a second dot occurs. -/
def splitDot : List Char → Option (List Char × List Char)
  | [] => some ([], [])
  | '.' :: cs => if '.' ∈ cs then none else some ([], cs)
  | c :: cs => (splitDot cs).map fun p => (c :: p.1, p.2)

/-- The mantissa of a Python float literal: digits with an optional dot,
at least one digit overall. -/
def parseMantissa (cs : List Char) : Option ℚ :=
  match splitDot cs with
  | none => none
  | some (ip, fp) =>
    if (ip ++ fp) ≠ [] ∧ (ip ++ fp).all Char.isDigit then
      some ((digitsToNat (ip ++ fp) : ℚ) / (10 : ℚ) ^ fp.length)
    else none

/-- Python `float(s)` on a stripped decimal string (optional sign, mantissa,
optional exponent); `inf`/`nan` and digit underscores are not modelled —
catalog fields are plain decimals. The value is exact as a rational. -/
def pyFloat (s : String) : Option ℚ :=
  let me := splitOnExp s.toList
  let sm := parseSign me.1
  match parseMantissa sm.2 with
  | none => none
  | some mant =>
    let signed := if sm.1 then -mant else mant
    match me.2 with
    | none => some signed
    | some ecs =>
      let se := parseSign ecs
      if se.2 ≠ [] ∧ se.2.all Char.isDigit then
        some (signed * (10 : ℚ) ^ (if se.1 then -(digitsToNat se.2 : ℤ) else (digitsToNat se.2 : ℤ)))
      else none

/-- One orbital-element field: `float(line[a:b].strip()) if ... else dflt`;
an unparseable non-empty field is a `ValueError` (`none`). -/
def fieldFloat (line : String) (a b : ℕ) (dflt : ℚ) : Option ℚ :=
  let s := (strSlice line a b).trim
  if s = "" then some dflt else pyFloat s

/-- Parse the orbital elements out of one matching `astorb.dat` line
(fixed column ranges as in the source). -/
def parseOrbLine (line : String) : Option OrbitalElements := do
  let epoch ← fieldFloat line 106 115 2451545
  let mean_anomaly ← fieldFloat line 115 125 0
  let arg_perihelion ← fieldFloat line 125 135 0
  let long_asc_node ← fieldFloat line 135 145 0
  let inclination ← fieldFloat line 145 155 0
  let eccentricity ← fieldFloat line 70 79 0
  let semi_major_axis ← fieldFloat line 92 103 1
  pure ⟨epoch, mean_anomaly, arg_perihelion, long_asc_node, inclination,
    eccentricity, semi_major_axis⟩

/-- The per-line asteroid-number test of the scan: blank lines and lines
shorter than 200 characters are skipped (`continue`), as is a line whose
columns 1–6 do not parse as an int (`ValueError`). -/
def lineNumber (line : String) : Option ℤ :=
  if line.trim = "" then none
  else if line.length < 200 then none
  else pyInt ((strSlice line 0 6).trim)

/-- The line scan of `parse_astorb_for_asteroid`: first line whose number
matches and whose elements parse; any per-line failure `continue`s. -/
def scanAstorb (n : ℤ) : List String → Option OrbitalElements
  | [] => none
  | line :: rest =>
    match lineNumber line with
    | none => scanAstorb n rest
    | some num =>
      if num = n then
        match parseOrbLine line with
        | some el => some el
        | none => scanAstorb n rest
      else scanAstorb n rest

/-- `parse_astorb_for_asteroid(asteroid_number, ephe_path)`: the catalog file
is embedded as `Option (List String)` — `none` models a missing
(`os.path.exists` false) or unreadable (`open` raising, caught) file. -/
def parse_astorb_for_asteroid (asteroid_number : ℤ) (catalog : Option (List String)) :
    Option OrbitalElements :=
  match catalog with
  | none => none
  | some lines => scanAstorb asteroid_number lines

/-- The position record `calculate_asteroid` returns on success. -/
structure AsteroidPosition where
  longitude : ℝ
  sign : String
  degrees_in_sign : ℝ
  speed : ℝ
  retrograde : Bool

/-- `calculate_asteroid(asteroid_number, ...)`: the Julian date computed by
the external time/ephemeris collaborators is taken as the `jd` parameter;
a failed catalog lookup or propagation yields `none`. -/
noncomputable def calculate_asteroid (asteroid_number : ℤ) (jd : ℝ)
    (catalog : Option (List String)) : Option AsteroidPosition :=
  match parse_astorb_for_asteroid asteroid_number catalog with
  | none => none
  | some el =>
    match calculate_position_from_elements jd el with
    | none => none
    | some lng0 =>
      let lng := pymodR lng0 360
      some ⟨lng, get_zodiac_sign_real lng, pymodR lng 30, 0, false⟩

/-- Counterexample elements for the C6 round-trip: a circular (`e = 0`) but
perpendicular (`i = 90°`) orbit. -/
def cexElements : OrbitalElements := ⟨2451545, 90, 0, 0, 90, 0, 1⟩

/-- A circular, zero-inclination orbit used to witness the amended C6. -/
def demoElements : OrbitalElements := ⟨2451545, 10, 20, 30, 0, 0, 1⟩

/-! ### Helper lemmas -/

theorem pymod_eq_self {x m : ℚ} (h0 : 0 ≤ x) (hm : x < m) : pymod x m = x := by
  have hmpos : 0 < m := lt_of_le_of_lt h0 hm
  have hfloor : ⌊x / m⌋ = 0 := by
    rw [Int.floor_eq_zero_iff]
    constructor
    · positivity
    · rw [div_lt_one hmpos] at *
      simpa using hm
  simp [pymod, hfloor]

/-! ### C10: empty body set and the balance scorers -/

/-- **C10.** For the empty body set, the elemental- and modality-balance
scorers divide each count by the body total and hit a division by zero
(an error, not a graceful result), unlike the aspect/pattern detectors,
which return empty lists. -/
theorem emptyChart_balance_division_by_zero :
    calculate_elemental_balance [] = Except.error "ZeroDivisionError" ∧
    calculate_modality_balance [] = Except.error "ZeroDivisionError" ∧
    detect_aspects [] = [] ∧
    detect_chart_patterns [] = [] := by
  refine ⟨?_, ?_, rfl, rfl⟩ <;>
    · simp only [calculate_elemental_balance, calculate_modality_balance, pydiv, List.mapM,
        List.mapM.loop, List.length_nil, Nat.cast_zero, if_pos rfl]
      rfl

/-! ### C4: shortest-arc angular separation -/

/-- **C4.** `calculate_aspect_angle` is symmetric and zero on the diagonal,
and on the longitude domain `[0, 360)` of the data model its value lies in
`[0, 180]` and agrees with the spec's shortest-arc formula
`d = |a-b| mod 360; d > 180 ? 360-d : d`. -/
theorem calculate_aspect_angle_spec (a b : ℚ) :
    calculate_aspect_angle a b = calculate_aspect_angle b a ∧
    calculate_aspect_angle a a = 0 ∧
    (0 ≤ a → a < 360 → 0 ≤ b → b < 360 →
      0 ≤ calculate_aspect_angle a b ∧ calculate_aspect_angle a b ≤ 180 ∧
      calculate_aspect_angle a b = shortestArcSpec a b) := by
  refine ⟨by rw [calculate_aspect_angle, calculate_aspect_angle, abs_sub_comm], ?_, ?_⟩
  · simp [calculate_aspect_angle]
  · intro ha1 ha2 hb1 hb2
    have habs : |a - b| < 360 := by
      rw [abs_sub_lt_iff]; constructor <;> linarith
    have habs0 : (0 : ℚ) ≤ |a - b| := abs_nonneg _
    have hmod : pymod |a - b| 360 = |a - b| := pymod_eq_self habs0 habs
    rw [calculate_aspect_angle, shortestArcSpec, hmod]
    split_ifs with h
    · exact ⟨by linarith, by linarith, rfl⟩
    · exact ⟨habs0, by linarith [not_lt.mp h], rfl⟩

/-- Witness for C4 at `a = 10`, `b = 250`: both hypotheses hold and the
separation is in range and matches the spec formula. -/
theorem calculate_aspect_angle_spec_witness :
    0 ≤ calculate_aspect_angle (10 : ℚ) 250 ∧ calculate_aspect_angle (10 : ℚ) 250 ≤ 180 ∧
    calculate_aspect_angle (10 : ℚ) 250 = shortestArcSpec 10 250 :=
  (calculate_aspect_angle_spec 10 250).2.2 (by norm_num) (by norm_num) (by norm_num) (by norm_num)

/-! ### C3: zodiac sign periodicity -/

/-- **C3 counterexample.** The claim asserts `zodiacSign(L) = zodiacSign(L + 360k)`
for every real `L` and integer `k`; it fails at `L = -15`, `k = 1`, because the
source truncates `longitude / 30` toward zero (`int()`), not downward:
`get_zodiac_sign (-15) = "Aries"` but `get_zodiac_sign 345 = "Pisces"`. -/
theorem get_zodiac_sign_negative_breaks_periodicity :
    get_zodiac_sign (-15) ≠ get_zodiac_sign (-15 + 360 * 1) := by
  have h1 : pytrunc ((-15 : ℚ) / 30) = 0 := by norm_num [pytrunc]
  have h2 : pytrunc ((-15 + 360 * 1 : ℚ) / 30) = 11 := by norm_num [pytrunc]
  simp only [get_zodiac_sign, h1, h2]
  decide

/-- **C3 amended.** For nonnegative longitudes (where Python `int()` agrees
with `floor`) the claim holds: if `L ≥ 0` and `L + 360k ≥ 0` then
`get_zodiac_sign L = get_zodiac_sign (L + 360k)`, and both equal the
`ZODIAC_SIGNS` entry at index `⌊L/30⌋ mod 12`. -/
theorem get_zodiac_sign_periodicity_nonneg (L : ℚ) (k : ℤ) (hL : 0 ≤ L)
    (hLk : 0 ≤ L + 360 * k) :
    get_zodiac_sign L = get_zodiac_sign (L + 360 * k) ∧
    get_zodiac_sign L = ZODIAC_SIGNS.getD ((⌊L / 30⌋ % 12).toNat) "" := by
  have htr : ∀ x : ℚ, 0 ≤ x → pytrunc x = ⌊x⌋ := by
    intro x hx
    rw [pytrunc, if_neg (not_lt.mpr hx)]
  have h1 : pytrunc (L / 30) = ⌊L / 30⌋ := htr _ (by positivity)
  have h2 : pytrunc ((L + 360 * k) / 30) = ⌊L / 30 + 12 * k⌋ := by
    rw [htr _ (by positivity)]
    congr 1
    ring
  have h3 : ⌊L / 30 + 12 * k⌋ = ⌊L / 30⌋ + 12 * k := by
    rw [show (12 * k : ℚ) = ((12 * k : ℤ) : ℚ) by push_cast; ring, Int.floor_add_int]
  have h4 : (⌊L / 30⌋ + 12 * k) % 12 = ⌊L / 30⌋ % 12 := by
    omega
  constructor
  · rw [get_zodiac_sign, get_zodiac_sign, h1, h2, h3, h4]
  · rw [get_zodiac_sign, h1]

/-- Witness for C3-amended at `L = 45`, `k = 2`. -/
theorem get_zodiac_sign_periodicity_nonneg_witness :
    get_zodiac_sign 45 = get_zodiac_sign (45 + 360 * 2) ∧
    get_zodiac_sign 45 = ZODIAC_SIGNS.getD ((⌊(45 : ℚ) / 30⌋ % 12).toNat) "" :=
  get_zodiac_sign_periodicity_nonneg 45 2 (by norm_num) (by norm_num)

/-! ### C2: house locator -/

theorem houseGo_spec (pl : ℚ) (cusps : ℕ → ℚ) :
    ∀ (fuel start : ℕ),
      (∃ n, start ≤ n ∧ n < start + fuel ∧ houseMatch pl cusps n = true ∧
        (∀ m, start ≤ m → m < n → houseMatch pl cusps m = false) ∧
        houseGo pl cusps fuel start = n) ∨
      ((∀ m, start ≤ m → m < start + fuel → houseMatch pl cusps m = false) ∧
        houseGo pl cusps fuel start = 1) := by
  intro fuel
  induction fuel with
  | zero => intro start; exact Or.inr ⟨fun m h1 h2 => absurd (lt_of_le_of_lt h1 h2) (by omega), rfl⟩
  | succ f ih =>
    intro start
    by_cases h : houseMatch pl cusps start = true
    · exact Or.inl ⟨start, le_refl _, by omega, h,
        fun m h1 h2 => absurd (lt_of_le_of_lt h1 h2) (lt_irrefl _), by simp [houseGo, h]⟩
    · have h' : houseMatch pl cusps start = false := by
        cases hh : houseMatch pl cusps start
        · rfl
        · exact absurd hh h
      rcases ih (start + 1) with ⟨n, h1, h2, h3, h4, h5⟩ | ⟨hall, hres⟩
      · refine Or.inl ⟨n, by omega, by omega, h3, ?_, by simp [houseGo, h', h5]⟩
        intro m hm1 hm2
        rcases Nat.eq_or_lt_of_le hm1 with rfl | hm1'
        · exact h'
        · exact h4 m (by omega) hm2
      · refine Or.inr ⟨?_, by simp [houseGo, h', hres]⟩
        intro m hm1 hm2
        rcases Nat.eq_or_lt_of_le hm1 with rfl | hm1'
        · exact h'
        · exact hall m (by omega) (by omega)

/-- **C2.** The house locator scans houses 1..12 in order against the
`% 360`-normalised longitude and cusp pair (`cur ≤ L < nxt` when
`cur < nxt`, else `L ≥ cur ∨ L < nxt`), returns the first match, and
returns house 1 when no house matches; with equal-house cusps
0, 30, …, 330 it places 15° in house 1, 45° in house 2 and 359° in
house 12. -/
theorem find_house_first_match_spec :
    (∀ (L : ℚ) (cusps : ℕ → ℚ),
      (∃ n, 1 ≤ n ∧ n ≤ 12 ∧ houseMatch (pymod L 360) cusps n = true ∧
        (∀ m, 1 ≤ m → m < n → houseMatch (pymod L 360) cusps m = false) ∧
        find_house_for_planet L cusps = n) ∨
      ((∀ m, 1 ≤ m → m ≤ 12 → houseMatch (pymod L 360) cusps m = false) ∧
        find_house_for_planet L cusps = 1)) ∧
    find_house_for_planet 15 equalCusps = 1 ∧
    find_house_for_planet 45 equalCusps = 2 ∧
    find_house_for_planet 359 equalCusps = 12 := by
  refine ⟨?_, ?_, ?_, ?_⟩
  · intro L cusps
    rcases houseGo_spec (pymod L 360) cusps 12 1 with ⟨n, h1, h2, h3, h4, h5⟩ | ⟨hall, hres⟩
    · exact Or.inl ⟨n, h1, by omega, h3, h4, h5⟩
    · exact Or.inr ⟨fun m hm1 hm2 => hall m hm1 (by omega), hres⟩
  · norm_num [find_house_for_planet, houseGo, houseMatch, equalCusps, pymod]
  · norm_num [find_house_for_planet, houseGo, houseMatch, equalCusps, pymod]
  · norm_num [find_house_for_planet, houseGo, houseMatch, equalCusps, pymod]

/-- Witness for C2: the scan characterisation applied at the concrete
longitude 100° over the equal-house system. -/
theorem find_house_first_match_spec_witness :
    (∃ n, 1 ≤ n ∧ n ≤ 12 ∧ houseMatch (pymod 100 360) equalCusps n = true ∧
      (∀ m, 1 ≤ m → m < n → houseMatch (pymod 100 360) equalCusps m = false) ∧
      find_house_for_planet 100 equalCusps = n) ∨
    ((∀ m, 1 ≤ m → m ≤ 12 → houseMatch (pymod 100 360) equalCusps m = false) ∧
      find_house_for_planet 100 equalCusps = 1) :=
  find_house_first_match_spec.1 100 equalCusps

/-! ### C9: degenerate inputs to the detectors -/

/-- **C9.** With fewer than 2 bodies (including the empty set) both the
aspect detector and the chart-pattern detector return empty lists (they are
total functions in the embedding — nothing is raised). -/
theorem degenerate_input_empty_results (ps : List (String × ℚ)) (h : ps.length < 2) :
    detect_aspects ps = [] ∧ detect_chart_patterns ps = [] := by
  match ps with
  | [] => exact ⟨rfl, rfl⟩
  | [p] =>
    refine ⟨rfl, ?_⟩
    simp [detect_chart_patterns, addYods, yodCandidates, addTSquares, tsCandidates,
      addGrandCrosses, gcCandidates, grand_trines, triplesAfter, pairsAfter, stelliums,
      counterKeys]
  | p :: q :: rest => simp at h; omega

/-- Witness for C9 at the one-body chart `[("Sun", 10)]`. -/
theorem degenerate_input_empty_results_witness :
    detect_aspects [("Sun", 10)] = [] ∧ detect_chart_patterns [("Sun", 10)] = [] :=
  degenerate_input_empty_results [("Sun", 10)] (by decide)

/-! ### C1: aspect detector, one aspect per pair, first match wins -/

theorem mem_pairsAfter {α : Type} {l : List α} {x : α × α} (h : x ∈ pairsAfter l) :
    x.1 ∈ l ∧ x.2 ∈ l := by
  induction l with
  | nil => simp [pairsAfter] at h
  | cons p rest ih =>
    simp only [pairsAfter, List.mem_append, List.mem_map] at h
    rcases h with ⟨q, hq, rfl⟩ | h
    · exact ⟨List.mem_cons_self _ _, List.mem_cons_of_mem _ hq⟩
    · obtain ⟨h1, h2⟩ := ih h
      exact ⟨List.mem_cons_of_mem _ h1, List.mem_cons_of_mem _ h2⟩

theorem countP_filterMap_eq {α β : Type} (f : α → Option β) (p : β → Bool) (l : List α) :
    (l.filterMap f).countP p = l.countP (fun a => ((f a).map p).getD false) := by
  induction l with
  | nil => rfl
  | cons a l ih =>
    cases hf : f a with
    | none => simp [List.filterMap_cons, hf, List.countP_cons, ih]
    | some b => simp [List.filterMap_cons, hf, List.countP_cons, ih]

def pairPred (A B : String) (pq : (String × ℚ) × (String × ℚ)) : Bool :=
  decide ((pq.1.1 = A ∧ pq.2.1 = B) ∨ (pq.1.1 = B ∧ pq.2.1 = A))

theorem pairPred_comm (A B : String) : pairPred A B = pairPred B A := by
  funext pq
  simp [pairPred, or_comm]

theorem countP_key_le_one {l : List (String × ℚ)} (h : (l.map Prod.fst).Nodup) (B : String) :
    l.countP (fun q => decide (q.1 = B)) ≤ 1 := by
  induction l with
  | nil => simp
  | cons q rest ih =>
    simp only [List.map_cons, List.nodup_cons] at h
    rw [List.countP_cons]
    by_cases hq : q.1 = B
    · have h0 : rest.countP (fun q => decide (q.1 = B)) = 0 := by
        rw [List.countP_eq_zero]
        intro x hx
        simp only [decide_eq_true_eq]
        intro hxB
        apply h.1
        have hmem := List.mem_map_of_mem Prod.fst hx
        rw [hxB] at hmem
        rw [hq]
        exact hmem
      simp [h0, hq]
    · simp only [hq, decide_False]
      simpa using ih h.2

theorem countP_pairsAfter_zero_of_not_mem (A B : String) (l : List (String × ℚ))
    (hout : A ∉ l.map Prod.fst) :
    (pairsAfter l).countP (pairPred A B) = 0 := by
  rw [List.countP_eq_zero]
  intro pq hpq
  obtain ⟨h1, h2⟩ := mem_pairsAfter hpq
  simp only [pairPred, decide_eq_true_eq]
  rintro (⟨hx, _⟩ | ⟨_, hx⟩)
  · exact hout (hx ▸ List.mem_map_of_mem Prod.fst h1)
  · exact hout (hx ▸ List.mem_map_of_mem Prod.fst h2)

theorem countP_pairsAfter_le_one (A B : String) (hAB : A ≠ B) (l : List (String × ℚ))
    (hnd : (l.map Prod.fst).Nodup) :
    (pairsAfter l).countP (pairPred A B) ≤ 1 := by
  induction l with
  | nil => simp [pairsAfter]
  | cons p rest ih =>
    simp only [List.map_cons, List.nodup_cons] at hnd
    rw [pairsAfter, List.countP_append]
    by_cases hpA : p.1 = A
    · have h1 : (rest.map fun q => (p, q)).countP (pairPred A B) =
          rest.countP (fun q => decide (q.1 = B)) := by
        rw [List.countP_map]
        apply List.countP_congr
        intro q hq
        simp only [Function.comp, pairPred, hpA, decide_eq_true_eq]
        tauto
      have h2 : (pairsAfter rest).countP (pairPred A B) = 0 :=
        countP_pairsAfter_zero_of_not_mem A B rest (hpA ▸ hnd.1)
      rw [h1, h2, Nat.add_zero]
      exact countP_key_le_one hnd.2 B
    · by_cases hpB : p.1 = B
      · have h1 : (rest.map fun q => (p, q)).countP (pairPred A B) =
            rest.countP (fun q => decide (q.1 = A)) := by
          rw [List.countP_map]
          apply List.countP_congr
          intro q hq
          simp only [Function.comp, pairPred, hpB, decide_eq_true_eq]
          tauto
        have h2 : (pairsAfter rest).countP (pairPred A B) = 0 := by
          rw [pairPred_comm]
          exact countP_pairsAfter_zero_of_not_mem B A rest (hpB ▸ hnd.1)
        rw [h1, h2, Nat.add_zero]
        exact countP_key_le_one hnd.2 A
      · have h1 : (rest.map fun q => (p, q)).countP (pairPred A B) = 0 := by
          rw [List.countP_eq_zero]
          intro x hx
          simp only [List.mem_map] at hx
          obtain ⟨q, hq, rfl⟩ := hx
          simp only [pairPred, decide_eq_true_eq]
          rintro (⟨h, _⟩ | ⟨h, _⟩)
          · exact hpA h
          · exact hpB h
        rw [h1, Nat.zero_add]
        exact ih hnd.2

theorem calculate_aspect_angle_comm (a b : ℚ) :
    calculate_aspect_angle a b = calculate_aspect_angle b a := by
  rw [calculate_aspect_angle, calculate_aspect_angle, abs_sub_comm]

theorem pair_mem_pairsAfter {α : Type} {l : List α} {x y : α} (hxy : x ≠ y)
    (hx : x ∈ l) (hy : y ∈ l) :
    (x, y) ∈ pairsAfter l ∨ (y, x) ∈ pairsAfter l := by
  induction l with
  | nil => simp at hx
  | cons p rest ih =>
    rcases List.mem_cons.mp hx with rfl | hx'
    · rcases List.mem_cons.mp hy with rfl | hy'
      · exact absurd rfl hxy
      · left
        simp only [pairsAfter, List.mem_append, List.mem_map]
        exact Or.inl ⟨y, hy', rfl⟩
    · rcases List.mem_cons.mp hy with rfl | hy'
      · right
        simp only [pairsAfter, List.mem_append, List.mem_map]
        exact Or.inl ⟨x, hx', rfl⟩
      · rcases ih hx' hy' with h | h
        · left
          simp only [pairsAfter, List.mem_append]
          exact Or.inr h
        · right
          simp only [pairsAfter, List.mem_append]
          exact Or.inr h

theorem assoc_key_unique {l : List (String × ℚ)} (h : (l.map Prod.fst).Nodup) {A : String}
    {x y : ℚ} (hx : (A, x) ∈ l) (hy : (A, y) ∈ l) : x = y := by
  induction l with
  | nil => simp at hx
  | cons p rest ih =>
    simp only [List.map_cons, List.nodup_cons] at h
    rcases List.mem_cons.mp hx with hpx | hx'
    · rcases List.mem_cons.mp hy with hpy | hy'
      · have : (A, x) = (A, y) := hpx.trans hpy.symm
        exact (Prod.ext_iff.mp this).2
      · exfalso
        apply h.1
        have hA : p.1 = A := by rw [← hpx]
        rw [hA]
        exact List.mem_map_of_mem Prod.fst hy'
    · rcases List.mem_cons.mp hy with hpy | hy'
      · exfalso
        apply h.1
        have hA : p.1 = A := by rw [← hpy]
        rw [hA]
        exact List.mem_map_of_mem Prod.fst hx'
      · exact ih h.2 hx' hy'

theorem detect_aspects_mem_shape (ps : List (String × ℚ))
    (hnd : (ps.map Prod.fst).Nodup) (A B : String) (la lb : ℚ)
    (hA : (A, la) ∈ ps) (hB : (B, lb) ∈ ps) :
    ∀ a ∈ detect_aspects ps, pairNames A B a = true →
      a.angle = calculate_aspect_angle la lb ∧
      ∃ t ∈ aspect_types, firstAspectType (calculate_aspect_angle la lb) = some t ∧
        a.type = t.1 := by
  intro a ha hpn
  rw [detect_aspects, List.mem_filterMap] at ha
  obtain ⟨pq, hpq, hfa⟩ := ha
  rw [Option.map_eq_some'] at hfa
  obtain ⟨t, ht, rfl⟩ := hfa
  simp only [pairNames, decide_eq_true_eq] at hpn
  obtain ⟨hm1, hm2⟩ := mem_pairsAfter hpq
  have hang : calculate_aspect_angle pq.1.2 pq.2.2 = calculate_aspect_angle la lb := by
    rcases hpn with ⟨h1, h2⟩ | ⟨h1, h2⟩
    · have e1 : pq.1.2 = la := by
        apply assoc_key_unique hnd _ hA
        rw [← h1, Prod.mk.eta]
        exact hm1
      have e2 : pq.2.2 = lb := by
        apply assoc_key_unique hnd _ hB
        rw [← h2, Prod.mk.eta]
        exact hm2
      rw [e1, e2]
    · have e1 : pq.1.2 = lb := by
        apply assoc_key_unique hnd _ hB
        rw [← h1, Prod.mk.eta]
        exact hm1
      have e2 : pq.2.2 = la := by
        apply assoc_key_unique hnd _ hA
        rw [← h2, Prod.mk.eta]
        exact hm2
      rw [e1, e2, calculate_aspect_angle_comm]
  refine ⟨hang, t, List.mem_of_find?_eq_some ht, ?_, rfl⟩
  rw [← hang]
  exact ht

/-- **C1.** For a chart with (at least) two distinct bodies `A ≠ B`, the
aspect detector records at most one aspect for the unordered pair `{A, B}`;
any recorded aspect for the pair carries the pair's angular separation and
the first aspect-table entry (conjunction, opposition, trine, square,
sextile order) within whose orb that separation falls; if no table entry
matches, no aspect at all is recorded for the pair; and if some table entry
does match the pair's separation (the first such being `t`), then exactly
one aspect is recorded for the pair (which by the second conjunct carries
type `t.1`). -/
theorem detect_aspects_pair_first_match (ps : List (String × ℚ))
    (hnd : (ps.map Prod.fst).Nodup) (A B : String) (hAB : A ≠ B) (la lb : ℚ)
    (hA : (A, la) ∈ ps) (hB : (B, lb) ∈ ps) :
    (detect_aspects ps).countP (pairNames A B) ≤ 1 ∧
    (∀ a ∈ detect_aspects ps, pairNames A B a = true →
      a.angle = calculate_aspect_angle la lb ∧
      ∃ t ∈ aspect_types, firstAspectType a.angle = some t ∧ a.type = t.1) ∧
    (firstAspectType (calculate_aspect_angle la lb) = none →
      (detect_aspects ps).countP (pairNames A B) = 0) ∧
    (∀ t, firstAspectType (calculate_aspect_angle la lb) = some t →
      (detect_aspects ps).countP (pairNames A B) = 1) := by
  have hle : (detect_aspects ps).countP (pairNames A B) ≤ 1 := by
    calc (detect_aspects ps).countP (pairNames A B)
        ≤ (pairsAfter ps).countP (pairPred A B) := by
          rw [detect_aspects, countP_filterMap_eq]
          apply List.countP_mono_left
          intro pq hpq
          cases hft : firstAspectType (calculate_aspect_angle pq.1.2 pq.2.2) with
          | none => simp [hft]
          | some t =>
            simp only [hft, Option.map_some', Option.getD_some, pairNames, pairPred,
              decide_eq_true_eq]
            exact fun h => h
      _ ≤ 1 := countP_pairsAfter_le_one A B hAB ps hnd
  refine ⟨hle, ?_, ?_, ?_⟩
  · intro a ha hpn
    obtain ⟨h1, t, h2, h3, h4⟩ := detect_aspects_mem_shape ps hnd A B la lb hA hB a ha hpn
    exact ⟨h1, t, h2, by rw [h1]; exact h3, h4⟩
  · intro hnone
    rw [List.countP_eq_zero]
    intro a ha
    intro hpn
    obtain ⟨h1, t, h2, h3, h4⟩ := detect_aspects_mem_shape ps hnd A B la lb hA hB a ha hpn
    rw [hnone] at h3
    exact Option.noConfusion h3
  · intro t ht
    have hxy : ((A, la) : String × ℚ) ≠ (B, lb) := by
      intro h
      exact hAB (congrArg Prod.fst h)
    have hge : 0 < (detect_aspects ps).countP (pairNames A B) := by
      rw [detect_aspects, countP_filterMap_eq]
      apply List.countP_pos_iff.mpr
      rcases pair_mem_pairsAfter hxy hA hB with hmem | hmem
      · refine ⟨((A, la), (B, lb)), hmem, ?_⟩
        show (((firstAspectType (calculate_aspect_angle la lb)).map fun u =>
            (⟨u.1, A, B, calculate_aspect_angle la lb⟩ : Aspect)).map
              (pairNames A B)).getD false = true
        rw [ht]
        simp [pairNames]
      · refine ⟨((B, lb), (A, la)), hmem, ?_⟩
        show (((firstAspectType (calculate_aspect_angle lb la)).map fun u =>
            (⟨u.1, B, A, calculate_aspect_angle lb la⟩ : Aspect)).map
              (pairNames A B)).getD false = true
        rw [calculate_aspect_angle_comm lb la, ht]
        simp [pairNames]
    omega

/-- Witness for C1 at the two-body chart Sun 10°, Moon 130° (a 120° trine):
exactly one aspect is recorded for the pair. -/
theorem detect_aspects_pair_first_match_witness :
    (detect_aspects [("Sun", 10), ("Moon", 130)]).countP (pairNames "Sun" "Moon") = 1 :=
  (detect_aspects_pair_first_match [("Sun", 10), ("Moon", 130)] (by decide)
    "Sun" "Moon" (by decide) 10 130 (by simp) (by simp)).2.2.2 ("trine", 120, 8)
    (by
      have h : calculate_aspect_angle 10 130 = 120 := by
        norm_num [calculate_aspect_angle]
      rw [h]
      norm_num [firstAspectType, aspect_types, List.find?])

/-! ### C5: stellium detection -/

theorem filter_foldl_dedupe {γ : Type} (g : γ → Pattern) (pred : Pattern → Bool)
    (hg : ∀ c, pred (g c) = false) (P : List Pattern → γ → Bool) (cands : List γ) :
    ∀ acc, (cands.foldl (fun acc c => if P acc c then acc else acc ++ [g c]) acc).filter pred
      = acc.filter pred := by
  induction cands with
  | nil => intro acc; rfl
  | cons c cs ih =>
    intro acc
    simp only [List.foldl_cons]
    by_cases h : P acc c = true
    · rw [if_pos h]
      exact ih acc
    · rw [if_neg h, ih (acc ++ [g c]), List.filter_append]
      simp [hg c]

theorem grand_trines_filter_stellium (ps : List (String × ℚ)) :
    (grand_trines ps).filter (fun p => p.type == "stellium") = [] := by
  rw [List.filter_eq_nil_iff]
  intro p hp
  rw [grand_trines, List.mem_filterMap] at hp
  obtain ⟨t, ht, hf⟩ := hp
  split at hf
  · cases hf
    simp
  · exact absurd hf (by simp)

theorem stelliums_filter_self (ps : List (String × ℚ)) :
    (stelliums ps).filter (fun p => p.type == "stellium") = stelliums ps := by
  rw [List.filter_eq_self]
  intro p hp
  rw [stelliums, List.mem_filterMap] at hp
  obtain ⟨s, hs, hf⟩ := hp
  split at hf
  · cases hf
    rfl
  · exact absurd hf (by simp)

theorem detect_chart_patterns_filter_stellium (ps : List (String × ℚ)) :
    (detect_chart_patterns ps).filter (fun p => p.type == "stellium") = stelliums ps := by
  rw [detect_chart_patterns, addYods, filter_foldl_dedupe _ _ (fun c => rfl),
    List.filter_append, addTSquares, filter_foldl_dedupe _ _ (fun c => rfl),
    addGrandCrosses, filter_foldl_dedupe _ _ (fun c => rfl),
    grand_trines_filter_stellium, stelliums_filter_self, List.nil_append]

theorem counterKeys_go_mem (l : List String) :
    ∀ (acc : List String) (s : String),
      s ∈ l.foldl (fun acc s => if s ∈ acc then acc else acc ++ [s]) acc ↔ s ∈ acc ∨ s ∈ l := by
  induction l with
  | nil => intro acc s; simp
  | cons a l ih =>
    intro acc s
    simp only [List.foldl_cons]
    rw [ih]
    by_cases ha : a ∈ acc
    · rw [if_pos ha]
      constructor
      · rintro (h | h)
        · exact Or.inl h
        · exact Or.inr (List.mem_cons_of_mem _ h)
      · rintro (h | h)
        · exact Or.inl h
        · rcases List.mem_cons.mp h with rfl | h'
          · exact Or.inl ha
          · exact Or.inr h'
    · rw [if_neg ha]
      simp only [List.mem_append, List.mem_singleton, List.mem_cons]
      tauto

theorem counterKeys_mem (l : List String) (s : String) : s ∈ counterKeys l ↔ s ∈ l := by
  rw [counterKeys, counterKeys_go_mem]
  simp

theorem counterKeys_go_nodup (l : List String) :
    ∀ acc : List String, acc.Nodup →
      (l.foldl (fun acc s => if s ∈ acc then acc else acc ++ [s]) acc).Nodup := by
  induction l with
  | nil => intro acc h; exact h
  | cons a l ih =>
    intro acc h
    simp only [List.foldl_cons]
    apply ih
    by_cases ha : a ∈ acc
    · rw [if_pos ha]; exact h
    · rw [if_neg ha]
      simp [List.nodup_append, h, ha]

theorem counterKeys_nodup (l : List String) : (counterKeys l).Nodup :=
  counterKeys_go_nodup l [] List.nodup_nil

theorem countP_decide_key (s : String) (c : String → Bool) :
    ∀ (l : List String), l.Nodup →
      l.countP (fun x => decide (x = s) && c x) = if s ∈ l ∧ c s = true then 1 else 0 := by
  intro l
  induction l with
  | nil => simp
  | cons a rest ih =>
    intro hnd
    simp only [List.nodup_cons] at hnd
    rw [List.countP_cons]
    by_cases ha : a = s
    · subst ha
      have h0 : rest.countP (fun x => decide (x = a) && c x) = 0 := by
        rw [List.countP_eq_zero]
        intro x hx hxx
        simp only [Bool.and_eq_true, decide_eq_true_eq] at hxx
        exact hnd.1 (hxx.1 ▸ hx)
      rw [h0]
      by_cases hc : c a = true <;> simp [hc, List.mem_cons]
    · have hfalse : (decide (a = s) && c a) = false := by
        simp [ha]
      rw [hfalse, ih hnd.2]
      simp only [Bool.false_eq_true, if_false, Nat.add_zero, List.mem_cons]
      have hiff : ((s = a ∨ s ∈ rest) ∧ c s = true) ↔ (s ∈ rest ∧ c s = true) := by
        constructor
        · rintro ⟨h1 | h1, h2⟩
          · exact absurd h1.symm ha
          · exact ⟨h1, h2⟩
        · rintro ⟨h1, h2⟩
          exact ⟨Or.inr h1, h2⟩
      rw [if_congr hiff rfl rfl]

theorem stelliums_countP (ps : List (String × ℚ)) (s : String) :
    (stelliums ps).countP (fun p => p.sign == some s) =
      if 3 ≤ (ps.map fun q => get_zodiac_sign q.2).count s then 1 else 0 := by
  rw [stelliums, countP_filterMap_eq]
  have hfun : (fun sgn => ((if 3 ≤ (ps.map fun p => get_zodiac_sign p.2).count sgn then
        some { type := "stellium",
               planets := (ps.filter fun p => get_zodiac_sign p.2 == sgn).map Prod.fst,
               apex := none, element := none, sign := some sgn }
      else none).map (fun p : Pattern => p.sign == some s)).getD false) =
      (fun sgn => decide (sgn = s) &&
        decide (3 ≤ (ps.map fun p => get_zodiac_sign p.2).count sgn)) := by
    funext sgn
    by_cases h : 3 ≤ (ps.map fun p => get_zodiac_sign p.2).count sgn
    · by_cases hs : sgn = s
      · subst hs
        simp [h]
      · simp [h, hs]
    · simp [h]
  rw [hfun, countP_decide_key s _ _ (counterKeys_nodup _)]
  by_cases h : 3 ≤ (ps.map fun q => get_zodiac_sign q.2).count s
  · have hmem : s ∈ counterKeys (ps.map fun q => get_zodiac_sign q.2) := by
      rw [counterKeys_mem]
      have : 0 < (ps.map fun q => get_zodiac_sign q.2).count s := by omega
      exact List.count_pos_iff.mp this
    simp [h, hmem]
  · simp [h]

theorem stelliums_mem_shape (ps : List (String × ℚ)) (s : String) :
    ∀ pat ∈ stelliums ps, pat.sign = some s →
      3 ≤ (ps.map fun q => get_zodiac_sign q.2).count s ∧
      pat.planets = (ps.filter fun q => get_zodiac_sign q.2 == s).map Prod.fst := by
  intro pat hp hsign
  rw [stelliums, List.mem_filterMap] at hp
  obtain ⟨sgn, hsgn, hf⟩ := hp
  by_cases h : 3 ≤ (ps.map fun p => get_zodiac_sign p.2).count sgn
  · rw [if_pos h] at hf
    cases hf
    simp only [Option.some.injEq] at hsign
    subst hsign
    exact ⟨h, rfl⟩
  · rw [if_neg h] at hf
    exact absurd hf (by simp)

/-- **C5.** A Stellium for sign `s` is reported exactly when at least 3
bodies occupy `s` — once per such sign, listing all its occupants — and a
pattern record tagged `"stellium"` with sign `s` certifies `≥ 3` occupants
and carries the full occupant list; concretely, three bodies in `[0, 30)`
(all Aries) yield exactly one Aries Stellium, while two bodies sharing
Aries yield none. -/
theorem stellium_iff_three_in_sign :
    (∀ (ps : List (String × ℚ)) (s : String),
      ((detect_chart_patterns ps).countP
          (fun p => p.type == "stellium" && p.sign == some s) =
        if 3 ≤ (ps.map fun q => get_zodiac_sign q.2).count s then 1 else 0) ∧
      (∀ pat ∈ detect_chart_patterns ps, pat.type = "stellium" → pat.sign = some s →
        3 ≤ (ps.map fun q => get_zodiac_sign q.2).count s ∧
        pat.planets = (ps.filter fun q => get_zodiac_sign q.2 == s).map Prod.fst)) ∧
    (detect_chart_patterns [("Sun", 5), ("Moon", 15), ("Mercury", 25)]).countP
      (fun p => p.type == "stellium" && p.sign == some "Aries") = 1 ∧
    (detect_chart_patterns [("Sun", 5), ("Moon", 15)]).countP
      (fun p => p.type == "stellium" && p.sign == some "Aries") = 0 := by
  have e1 : get_zodiac_sign 5 = "Aries" := by
    have h : pytrunc ((5 : ℚ) / 30) = 0 := by norm_num [pytrunc]
    simp only [get_zodiac_sign, h]
    decide
  have e2 : get_zodiac_sign 15 = "Aries" := by
    have h : pytrunc ((15 : ℚ) / 30) = 0 := by norm_num [pytrunc]
    simp only [get_zodiac_sign, h]
    decide
  have e3 : get_zodiac_sign 25 = "Aries" := by
    have h : pytrunc ((25 : ℚ) / 30) = 0 := by norm_num [pytrunc]
    simp only [get_zodiac_sign, h]
    decide
  have main : ∀ (ps : List (String × ℚ)) (s : String),
      ((detect_chart_patterns ps).countP
          (fun p => p.type == "stellium" && p.sign == some s) =
        if 3 ≤ (ps.map fun q => get_zodiac_sign q.2).count s then 1 else 0) ∧
      (∀ pat ∈ detect_chart_patterns ps, pat.type = "stellium" → pat.sign = some s →
        3 ≤ (ps.map fun q => get_zodiac_sign q.2).count s ∧
        pat.planets = (ps.filter fun q => get_zodiac_sign q.2 == s).map Prod.fst) := by
    intro ps s
    constructor
    · rw [show (fun p : Pattern => p.type == "stellium" && p.sign == some s) =
          (fun p : Pattern => p.sign == some s && (p.type == "stellium")) from
            funext fun p => Bool.and_comm _ _,
        ← List.countP_filter, detect_chart_patterns_filter_stellium, stelliums_countP]
    · intro pat hpat htype hsign
      have hmem : pat ∈ stelliums ps := by
        rw [← detect_chart_patterns_filter_stellium, List.mem_filter]
        exact ⟨hpat, by simp [htype]⟩
      exact stelliums_mem_shape ps s pat hmem hsign
  refine ⟨main, ?_, ?_⟩
  · rw [(main _ "Aries").1]
    simp only [List.map_cons, List.map_nil, e1, e2, e3]
    decide
  · rw [(main _ "Aries").1]
    simp only [List.map_cons, List.map_nil, e1, e2]
    decide

/-- Witness for C5: the occupant-list clause applied to the concrete Aries
stellium of the chart Sun 5°, Moon 15°, Mercury 25°. -/
theorem stellium_iff_three_in_sign_witness :
    3 ≤ ([("Sun", (5 : ℚ)), ("Moon", 15), ("Mercury", 25)].map
        fun q => get_zodiac_sign q.2).count "Aries" ∧
    (Pattern.mk "stellium" ["Sun", "Moon", "Mercury"] none none (some "Aries")).planets =
      ([("Sun", (5 : ℚ)), ("Moon", 15), ("Mercury", 25)].filter
        fun q => get_zodiac_sign q.2 == "Aries").map Prod.fst := by
  have e1 : get_zodiac_sign 5 = "Aries" := by
    have h : pytrunc ((5 : ℚ) / 30) = 0 := by norm_num [pytrunc]
    simp only [get_zodiac_sign, h]
    decide
  have e2 : get_zodiac_sign 15 = "Aries" := by
    have h : pytrunc ((15 : ℚ) / 30) = 0 := by norm_num [pytrunc]
    simp only [get_zodiac_sign, h]
    decide
  have e3 : get_zodiac_sign 25 = "Aries" := by
    have h : pytrunc ((25 : ℚ) / 30) = 0 := by norm_num [pytrunc]
    simp only [get_zodiac_sign, h]
    decide
  apply (stellium_iff_three_in_sign.1 _ "Aries").2
  · have hstell : stelliums [("Sun", (5 : ℚ)), ("Moon", 15), ("Mercury", 25)] =
        [Pattern.mk "stellium" ["Sun", "Moon", "Mercury"] none none (some "Aries")] := by
      simp only [stelliums, List.map_cons, List.map_nil, e1, e2, e3, counterKeys,
        List.foldl_cons, List.foldl_nil, List.filter_cons, List.filter_nil]
      simp [e1, e2, e3]
    have hmem : (Pattern.mk "stellium" ["Sun", "Moon", "Mercury"] none none (some "Aries")) ∈
        stelliums [("Sun", (5 : ℚ)), ("Moon", 15), ("Mercury", 25)] := by
      rw [hstell]
      exact List.mem_singleton_self _
    rw [← detect_chart_patterns_filter_stellium] at hmem
    exact (List.mem_filter.mp hmem).1
  · rfl
  · rfl

/-! ### C8: dominant-body scoring -/

/-- The total increment a key receives from a list of (key, value) events. -/
def incSum (events : List (String × ℕ)) (k : String) : ℕ :=
  ((events.filter fun e => e.1 == k).map Prod.snd).sum

theorem incSum_nil (k : String) : incSum [] k = 0 := rfl

theorem incSum_cons (e : String × ℕ) (es : List (String × ℕ)) (k : String) :
    incSum (e :: es) k = (if e.1 = k then e.2 else 0) + incSum es k := by
  rw [incSum, incSum, List.filter_cons]
  by_cases h : e.1 = k
  · simp [h]
  · simp [h]

theorem incSum_eq_zero (events : List (String × ℕ)) (k : String)
    (h : ∀ e ∈ events, e.1 ≠ k) : incSum events k = 0 := by
  induction events with
  | nil => rfl
  | cons e es ih =>
    rw [incSum_cons, if_neg (h e (List.mem_cons_self _ _)), ih fun x hx =>
      h x (List.mem_cons_of_mem _ hx)]

theorem dictIncr_some (d : List (String × ℕ)) (k : String) (v : ℕ)
    (h : k ∈ d.map Prod.fst) :
    dictIncr d k v = some (d.map fun p => if p.1 == k then (p.1, p.2 + v) else p) := by
  rw [dictIncr, if_pos]
  rw [List.any_eq_true]
  obtain ⟨p, hp, hpk⟩ := List.mem_map.mp h
  exact ⟨p, hp, by simp [hpk]⟩

theorem incrMap_keys (d : List (String × ℕ)) (k : String) (v : ℕ) :
    (d.map fun p => if p.1 == k then (p.1, p.2 + v) else p).map Prod.fst = d.map Prod.fst := by
  rw [List.map_map]
  apply List.map_congr_left
  intro p _
  simp only [Function.comp]
  split
  · rfl
  · rfl

theorem foldIncr_spec (events : List (String × ℕ)) :
    ∀ d : List (String × ℕ), (∀ e ∈ events, e.1 ∈ d.map Prod.fst) →
      events.foldlM (fun d e => dictIncr d e.1 e.2) d =
        some (d.map fun kv => (kv.1, kv.2 + incSum events kv.1)) := by
  induction events with
  | nil =>
    intro d _
    simp [List.foldlM, incSum_nil]
  | cons e es ih =>
    intro d h
    have he : e.1 ∈ d.map Prod.fst := h e (List.mem_cons_self _ _)
    rw [List.foldlM_cons, dictIncr_some d e.1 e.2 he]
    simp only [Option.bind_eq_bind, Option.some_bind]
    have hes : ∀ x ∈ es, x.1 ∈ ((d.map fun p => if p.1 == e.1 then (p.1, p.2 + e.2) else p).map
        Prod.fst) := by
      intro x hx
      rw [incrMap_keys]
      exact h x (List.mem_cons_of_mem _ hx)
    rw [ih _ hes, List.map_map]
    congr 1
    apply List.map_congr_left
    intro p _
    simp only [Function.comp]
    by_cases hp : p.1 = e.1
    · simp [incSum_cons, hp, Nat.add_assoc]
    · simp [incSum_cons, beq_iff_eq, hp, Ne.symm hp]

theorem incSum_rulership (R : List (String × List String)) (asc k : String) :
    (R.map Prod.fst).Nodup →
    incSum (R.filterMap fun r => if asc ∈ r.2 then some (r.1, 5) else none) k =
      if asc ∈ (((R.find? fun r => r.1 == k).map Prod.snd).getD []) then 5 else 0 := by
  induction R with
  | nil => intro _; simp [incSum_nil]
  | cons r R ih =>
    intro hnd
    simp only [List.map_cons, List.nodup_cons] at hnd
    have hevkeys : ∀ e ∈ R.filterMap fun r => if asc ∈ r.2 then some (r.1, 5) else none,
        e.1 ∈ R.map Prod.fst := by
      intro e he
      rw [List.mem_filterMap] at he
      obtain ⟨x, hx, hfx⟩ := he
      split at hfx
      · cases hfx
        exact List.mem_map_of_mem Prod.fst hx
      · exact absurd hfx (by simp)
    by_cases hk : r.1 = k
    · rw [List.find?_cons_of_pos _ (by simp [hk])]
      have hz : incSum (R.filterMap fun r => if asc ∈ r.2 then some (r.1, 5) else none) k = 0 := by
        apply incSum_eq_zero
        intro e he hek
        apply hnd.1
        rw [hk, ← hek]
        exact hevkeys e he
      by_cases ha : asc ∈ r.2
      · rw [@List.filterMap_cons_some _ _
          (fun r => if asc ∈ r.2 then some (r.1, 5) else none) r R (r.1, 5) (if_pos ha)]
        rw [incSum_cons, if_pos hk, hz]
        simp [ha]
      · rw [@List.filterMap_cons_none _ _
          (fun r => if asc ∈ r.2 then some (r.1, 5) else none) r R (if_neg ha)]
        rw [hz]
        simp [ha]
    · rw [List.find?_cons_of_neg _ (by simp [hk])]
      by_cases ha : asc ∈ r.2
      · rw [@List.filterMap_cons_some _ _
          (fun r => if asc ∈ r.2 then some (r.1, 5) else none) r R (r.1, 5) (if_pos ha)]
        rw [incSum_cons, if_neg hk, Nat.zero_add]
        exact ih hnd.2
      · rw [@List.filterMap_cons_none _ _
          (fun r => if asc ∈ r.2 then some (r.1, 5) else none) r R (if_neg ha)]
        exact ih hnd.2

theorem incSum_body_loop (P : (String × ℚ) → Prop) [DecidablePred P] (v : ℕ) (k : String)
    (L : ℚ) :
    ∀ (ps : List (String × ℚ)), (ps.map Prod.fst).Nodup → (k, L) ∈ ps →
      incSum (ps.filterMap fun p => if P p then some (p.1, v) else none) k =
        if P (k, L) then v else 0 := by
  intro ps
  induction ps with
  | nil => intro _ hk; simp at hk
  | cons p rest ih =>
    intro hnd hk
    simp only [List.map_cons, List.nodup_cons] at hnd
    have hevkeys : ∀ e ∈ rest.filterMap fun p => if P p then some (p.1, v) else none,
        e.1 ∈ rest.map Prod.fst := by
      intro e he
      rw [List.mem_filterMap] at he
      obtain ⟨x, hx, hfx⟩ := he
      split at hfx
      · cases hfx
        exact List.mem_map_of_mem Prod.fst hx
      · exact absurd hfx (by simp)
    rcases List.mem_cons.mp hk with hpk | hk'
    · have hz : incSum (rest.filterMap fun p => if P p then some (p.1, v) else none) k = 0 := by
        apply incSum_eq_zero
        intro e he hek
        apply hnd.1
        have hp1 : p.1 = k := by rw [← hpk]
        rw [hp1, ← hek]
        exact hevkeys e he
      by_cases hP : P p
      · rw [@List.filterMap_cons_some _ _
          (fun p => if P p then some (p.1, v) else none) p rest (p.1, v) (if_pos hP)]
        rw [incSum_cons, if_pos (show p.1 = k by rw [← hpk]), hz]
        rw [if_pos (show P (k, L) by rw [hpk]; exact hP)]
        simp
      · rw [@List.filterMap_cons_none _ _
          (fun p => if P p then some (p.1, v) else none) p rest (if_neg hP)]
        rw [hz, if_neg (show ¬P (k, L) by rw [hpk]; exact hP)]
    · have hpk : p.1 ≠ k := by
        intro hpk
        apply hnd.1
        rw [hpk]
        exact List.mem_map_of_mem Prod.fst hk'
      by_cases hP : P p
      · rw [@List.filterMap_cons_some _ _
          (fun p => if P p then some (p.1, v) else none) p rest (p.1, v) (if_pos hP)]
        rw [incSum_cons, if_neg hpk, Nat.zero_add]
        exact ih hnd.2 hk'
      · rw [@List.filterMap_cons_none _ _
          (fun p => if P p then some (p.1, v) else none) p rest (if_neg hP)]
        exact ih hnd.2 hk'

theorem foldlM_ite_incr {α : Type} (key : α → String) (v : α → ℕ) (P : α → Prop)
    [DecidablePred P] (l : List α) :
    ∀ d : List (String × ℕ),
      l.foldlM (fun d x => if P x then dictIncr d (key x) (v x) else some d) d =
        (l.filterMap fun x => if P x then some (key x, v x) else none).foldlM
          (fun d e => dictIncr d e.1 e.2) d := by
  induction l with
  | nil => intro d; rfl
  | cons x xs ih =>
    intro d
    rw [List.foldlM_cons, List.filterMap_cons]
    by_cases h : P x
    · rw [if_pos h, if_pos h, List.foldlM_cons]
      simp only [Option.bind_eq_bind]
      congr 1
      funext d'
      exact ih d'
    · rw [if_neg h, if_neg h]
      simp only [Option.bind_eq_bind, Option.some_bind]
      exact ih d

theorem foldlM_double_incr (l : List Aspect) :
    ∀ d : List (String × ℕ),
      l.foldlM (fun d a => do
        let d1 ← dictIncr d a.planet1 1
        dictIncr d1 a.planet2 1) d =
      (l.flatMap fun a => [(a.planet1, 1), (a.planet2, 1)]).foldlM
        (fun d e => dictIncr d e.1 e.2) d := by
  induction l with
  | nil => intro d; rfl
  | cons a l ih =>
    intro d
    rw [List.foldlM_cons, List.flatMap_cons, List.cons_append, List.singleton_append,
      List.foldlM_cons]
    simp only [Option.bind_eq_bind]
    cases h1 : dictIncr d a.planet1 1 with
    | none => simp
    | some d1 =>
      simp only [Option.some_bind, List.foldlM_cons, Option.bind_eq_bind]
      cases h2 : dictIncr d1 a.planet2 1 with
      | none => simp
      | some d2 =>
        simp only [Option.some_bind]
        exact ih d2

theorem incSum_aspect_events (l : List Aspect) (k : String) :
    incSum (l.flatMap fun a => [(a.planet1, 1), (a.planet2, 1)]) k =
      (l.countP fun a => a.planet1 == k) + (l.countP fun a => a.planet2 == k) := by
  induction l with
  | nil => rfl
  | cons a l ih =>
    rw [List.flatMap_cons, List.cons_append, List.singleton_append, incSum_cons, incSum_cons,
      List.countP_cons, List.countP_cons, ih]
    by_cases h1 : a.planet1 = k <;> by_cases h2 : a.planet2 = k <;>
      simp [h1, h2] <;> omega

theorem detect_aspects_names (ps : List (String × ℚ)) :
    ∀ a ∈ detect_aspects ps, a.planet1 ∈ ps.map Prod.fst ∧ a.planet2 ∈ ps.map Prod.fst := by
  intro a ha
  rw [detect_aspects, List.mem_filterMap] at ha
  obtain ⟨pq, hpq, hfa⟩ := ha
  rw [Option.map_eq_some'] at hfa
  obtain ⟨t, _, rfl⟩ := hfa
  obtain ⟨h1, h2⟩ := mem_pairsAfter hpq
  exact ⟨List.mem_map_of_mem Prod.fst h1, List.mem_map_of_mem Prod.fst h2⟩

theorem pymax_foldl_decompose :
    ∀ (xs : List (String × ℕ)) (x : String × ℕ),
      ∃ l1 l2,
        x :: xs = l1 ++ (xs.foldl (fun best p => if best.2 < p.2 then p else best) x) :: l2 ∧
        (∀ y ∈ l1, y.2 < (xs.foldl (fun best p => if best.2 < p.2 then p else best) x).2) ∧
        (∀ y ∈ l2, y.2 ≤ (xs.foldl (fun best p => if best.2 < p.2 then p else best) x).2) := by
  intro xs
  induction xs with
  | nil =>
    intro x
    exact ⟨[], [], rfl, by simp, by simp⟩
  | cons y ys ih =>
    intro x
    simp only [List.foldl_cons]
    by_cases h : x.2 < y.2
    · rw [if_pos h]
      obtain ⟨l1, l2, heq, hlt, hle⟩ := ih y
      have hy2 : y.2 ≤ (ys.foldl (fun best p => if best.2 < p.2 then p else best) y).2 := by
        cases l1 with
        | nil =>
          simp only [List.nil_append] at heq
          injection heq with h1 h2
          rw [← h1]
        | cons a l1' =>
          simp only [List.cons_append] at heq
          injection heq with h1 h2
          exact le_of_lt (hlt y (by rw [h1]; exact List.mem_cons_self _ _))
      refine ⟨x :: l1, l2, ?_, ?_, hle⟩
      · rw [List.cons_append, ← heq]
      · intro z hz
        rcases List.mem_cons.mp hz with rfl | hz'
        · omega
        · exact hlt z hz'
    · rw [if_neg h]
      obtain ⟨l1, l2, heq, hlt, hle⟩ := ih x
      have hxy : y.2 ≤ x.2 := le_of_not_lt h
      cases l1 with
      | nil =>
        simp only [List.nil_append] at heq
        injection heq with h1 h2
        refine ⟨[], y :: l2, ?_, by simp, ?_⟩
        · rw [List.nil_append, ← h1, h2]
        · intro z hz
          rcases List.mem_cons.mp hz with rfl | hz'
          · rw [← h1]
            exact hxy
          · exact hle z hz'
      | cons a l1' =>
        simp only [List.cons_append] at heq
        injection heq with h1 h2
        have hx2 : x.2 < (ys.foldl (fun best p => if best.2 < p.2 then p else best) x).2 :=
          hlt x (by rw [h1]; exact List.mem_cons_self _ _)
        refine ⟨x :: y :: l1', l2, ?_, ?_, hle⟩
        · simp only [List.cons_append]
          conv_lhs => rw [h2]
        · intro z hz
          rcases List.mem_cons.mp hz with rfl | hz'
          · exact hx2
          · rcases List.mem_cons.mp hz' with rfl | hz''
            · omega
            · exact hlt z (List.mem_cons_of_mem _ hz'')

theorem pymax_first_max (l : List (String × ℕ)) (x : String × ℕ) (h : pymax l = some x) :
    ∃ l1 l2, l = l1 ++ x :: l2 ∧ (∀ y ∈ l1, y.2 < x.2) ∧ (∀ y ∈ l2, y.2 ≤ x.2) := by
  cases l with
  | nil => simp [pymax] at h
  | cons a xs =>
    simp only [pymax, Option.some.injEq] at h
    subst h
    exact pymax_foldl_decompose xs a

theorem keys_of_scored (d : List (String × ℕ)) (f : String × ℕ → ℕ) :
    (d.map fun kv => (kv.1, f kv)).map Prod.fst = d.map Prod.fst := by
  rw [List.map_map]
  rfl

theorem calculate_dominant_planet_eq (ps : List (String × ℚ)) (hd : HouseData)
    (hnd : (ps.map Prod.fst).Nodup)
    (hrul : ∀ r ∈ RULERSHIPS, hd.asc_sign ∈ r.2 → r.1 ∈ ps.map Prod.fst) :
    calculate_dominant_planet ps hd =
      pymax (ps.map fun p => (p.1, planetScore ps hd p.1 p.2)) := by
  have hRnd : (RULERSHIPS.map Prod.fst).Nodup := by decide
  have hkeys0 : (ps.map fun p => (p.1, (0 : ℕ))).map Prod.fst = ps.map Prod.fst := by
    rw [List.map_map]
    rfl
  have hs1 : RULERSHIPS.foldlM
      (fun d r => if hd.asc_sign ∈ r.2 then dictIncr d r.1 5 else some d)
      (ps.map fun p => (p.1, 0)) =
      some ((ps.map fun p => (p.1, (0 : ℕ))).map fun kv =>
        (kv.1, kv.2 + incSum (RULERSHIPS.filterMap fun r =>
          if hd.asc_sign ∈ r.2 then some (r.1, 5) else none) kv.1)) := by
    rw [foldlM_ite_incr (fun r => r.1) (fun _ => 5) (fun r => hd.asc_sign ∈ r.2) RULERSHIPS]
    apply foldIncr_spec
    intro e he
    rw [List.mem_filterMap] at he
    obtain ⟨r, hr, hfr⟩ := he
    rw [hkeys0]
    split at hfr
    · cases hfr
      exact hrul r hr (by assumption)
    · exact absurd hfr (by simp)
  have hs2 : ∀ D : List (String × ℕ), D.map Prod.fst = ps.map Prod.fst →
      ps.foldlM (fun d p => if find_house_for_planet p.2 hd.cusps ∈ angular_houses then
          dictIncr d p.1 3 else some d) D =
      some (D.map fun kv => (kv.1, kv.2 + incSum (ps.filterMap fun q =>
        if find_house_for_planet q.2 hd.cusps ∈ angular_houses then some (q.1, 3) else none)
        kv.1)) := by
    intro D hD
    rw [foldlM_ite_incr (fun p => p.1) (fun _ => 3)
      (fun p => find_house_for_planet p.2 hd.cusps ∈ angular_houses) ps]
    apply foldIncr_spec
    intro e he
    rw [hD]
    rw [List.mem_filterMap] at he
    obtain ⟨q, hq, hfq⟩ := he
    split at hfq
    · cases hfq
      exact List.mem_map_of_mem Prod.fst hq
    · exact absurd hfq (by simp)
  have hs3 : ∀ D : List (String × ℕ), D.map Prod.fst = ps.map Prod.fst →
      ps.foldlM (fun d p => if get_zodiac_sign p.2 ∈ (rulershipOf p.1).getD [] then
          dictIncr d p.1 4 else some d) D =
      some (D.map fun kv => (kv.1, kv.2 + incSum (ps.filterMap fun q =>
        if get_zodiac_sign q.2 ∈ (rulershipOf q.1).getD [] then some (q.1, 4) else none)
        kv.1)) := by
    intro D hD
    rw [foldlM_ite_incr (fun p => p.1) (fun _ => 4)
      (fun p => get_zodiac_sign p.2 ∈ (rulershipOf p.1).getD []) ps]
    apply foldIncr_spec
    intro e he
    rw [hD]
    rw [List.mem_filterMap] at he
    obtain ⟨q, hq, hfq⟩ := he
    split at hfq
    · cases hfq
      exact List.mem_map_of_mem Prod.fst hq
    · exact absurd hfq (by simp)
  have hs4 : ∀ D : List (String × ℕ), D.map Prod.fst = ps.map Prod.fst →
      (detect_aspects ps).foldlM (fun d a => do
        let d1 ← dictIncr d a.planet1 1
        dictIncr d1 a.planet2 1) D =
      some (D.map fun kv => (kv.1, kv.2 + incSum ((detect_aspects ps).flatMap fun a =>
        [(a.planet1, 1), (a.planet2, 1)]) kv.1)) := by
    intro D hD
    rw [foldlM_double_incr]
    apply foldIncr_spec
    intro e he
    rw [hD]
    rw [List.mem_flatMap] at he
    obtain ⟨a, ha, hea⟩ := he
    obtain ⟨hn1, hn2⟩ := detect_aspects_names ps a ha
    rcases List.mem_cons.mp hea with rfl | hea'
    · exact hn1
    · rcases List.mem_cons.mp hea' with rfl | hea''
      · exact hn2
      · simp at hea''
  rw [calculate_dominant_planet, hs1]
  simp only [Option.bind_eq_bind, Option.some_bind]
  rw [hs2 _ (by rw [keys_of_scored, hkeys0])]
  simp only [Option.some_bind]
  rw [hs3 _ (by rw [keys_of_scored, keys_of_scored, hkeys0])]
  simp only [Option.some_bind]
  simp only [Option.bind_eq_bind] at hs4
  rw [hs4 _ (by rw [keys_of_scored, keys_of_scored, keys_of_scored, hkeys0])]
  simp only [Option.some_bind]
  congr 1
  rw [List.map_map, List.map_map, List.map_map, List.map_map]
  apply List.map_congr_left
  intro p hp
  have hpmem : (p.1, p.2) ∈ ps := by rw [Prod.mk.eta]; exact hp
  have hI2 := incSum_body_loop
    (fun q => find_house_for_planet q.2 hd.cusps ∈ angular_houses) 3 p.1 p.2 ps hnd hpmem
  have hI3 := incSum_body_loop
    (fun q => get_zodiac_sign q.2 ∈ (rulershipOf q.1).getD []) 4 p.1 p.2 ps hnd hpmem
  have hI1 := incSum_rulership RULERSHIPS hd.asc_sign p.1 hRnd
  have hI4 := incSum_aspect_events (detect_aspects ps) p.1
  simp only [Function.comp]
  rw [hI1, hI2, hI3, hI4]
  simp only [Prod.mk.injEq, true_and]
  rw [planetScore]
  simp only [Nat.zero_add]
  rfl

theorem demo_aspects_eval : detect_aspects demoChart =
    [⟨"trine", "Sun", "Moon", 120⟩, ⟨"trine", "Sun", "Mars", 120⟩,
     ⟨"trine", "Moon", "Mars", 120⟩] := by
  norm_num [demoChart, detect_aspects, pairsAfter, firstAspectType, aspect_types,
    calculate_aspect_angle, List.filterMap, List.find?]

theorem demo_sign_10 : get_zodiac_sign 10 = "Aries" := by
  have h : pytrunc ((10 : ℚ) / 30) = 0 := by norm_num [pytrunc]
  simp only [get_zodiac_sign, h]
  decide

theorem demo_sign_130 : get_zodiac_sign 130 = "Leo" := by
  have h : pytrunc ((130 : ℚ) / 30) = 4 := by norm_num [pytrunc]
  simp only [get_zodiac_sign, h]
  decide

theorem demo_sign_250 : get_zodiac_sign 250 = "Sagittarius" := by
  have h : pytrunc ((250 : ℚ) / 30) = 8 := by norm_num [pytrunc]
  simp only [get_zodiac_sign, h]
  decide

theorem demo_house_10 : find_house_for_planet 10 equalCusps = 1 := by
  norm_num [find_house_for_planet, houseGo, houseMatch, equalCusps, pymod]

theorem demo_house_130 : find_house_for_planet 130 equalCusps = 5 := by
  norm_num [find_house_for_planet, houseGo, houseMatch, equalCusps, pymod]

theorem demo_house_250 : find_house_for_planet 250 equalCusps = 9 := by
  norm_num [find_house_for_planet, houseGo, houseMatch, equalCusps, pymod]

theorem demo_score_mars : planetScore demoChart demoHD "Mars" 10 = 14 := by
  rw [planetScore, aspectCount, demo_aspects_eval]
  rw [show demoHD.cusps = equalCusps from rfl, demo_house_10, demo_sign_10]
  decide

theorem demo_score_sun : planetScore demoChart demoHD "Sun" 130 = 6 := by
  rw [planetScore, aspectCount, demo_aspects_eval]
  rw [show demoHD.cusps = equalCusps from rfl, demo_house_130, demo_sign_130]
  decide

theorem demo_score_moon : planetScore demoChart demoHD "Moon" 250 = 2 := by
  rw [planetScore, aspectCount, demo_aspects_eval]
  rw [show demoHD.cusps = equalCusps from rfl, demo_house_250, demo_sign_250]
  decide

theorem demo_scores_map :
    demoChart.map (fun p => (p.1, planetScore demoChart demoHD p.1 p.2)) =
      [("Sun", 6), ("Moon", 2), ("Mars", 14)] := by
  have h1 : planetScore [("Sun", (130 : ℚ)), ("Moon", 250), ("Mars", 10)] demoHD "Sun" 130 = 6 :=
    demo_score_sun
  have h2 : planetScore [("Sun", (130 : ℚ)), ("Moon", 250), ("Mars", 10)] demoHD "Moon" 250 = 2 :=
    demo_score_moon
  have h3 : planetScore [("Sun", (130 : ℚ)), ("Moon", 250), ("Mars", 10)] demoHD "Mars" 10 = 14 :=
    demo_score_mars
  simp only [demoChart, List.map_cons, List.map_nil]
  rw [h1, h2, h3]

/-- **C8.** Under the chart-validity hypotheses (unique body names, every
ruler of the Ascendant sign among the bodies — otherwise the source raises
`KeyError`), the dominant-body computation returns the first body of maximal
score, where each body's score is exactly the sum: 5 if it rules the
Ascendant sign, +3 if it sits in an angular house (1/4/7/10), +4 if it
occupies a sign it rules, +1 per detected aspect it participates in; in the
demonstration chart a body with all of these and 2 aspects scores
`5 + 3 + 4 + 2 = 14`. -/
theorem dominant_planet_score_spec (ps : List (String × ℚ)) (hd : HouseData)
    (hnd : (ps.map Prod.fst).Nodup)
    (hrul : ∀ r ∈ RULERSHIPS, hd.asc_sign ∈ r.2 → r.1 ∈ ps.map Prod.fst) :
    calculate_dominant_planet ps hd =
      pymax (ps.map fun p => (p.1, planetScore ps hd p.1 p.2)) ∧
    (∀ x, pymax (ps.map fun p => (p.1, planetScore ps hd p.1 p.2)) = some x →
      ∃ l1 l2, (ps.map fun p => (p.1, planetScore ps hd p.1 p.2)) = l1 ++ x :: l2 ∧
        (∀ y ∈ l1, y.2 < x.2) ∧ (∀ y ∈ l2, y.2 ≤ x.2)) ∧
    planetScore demoChart demoHD "Mars" 10 = 5 + 3 + 4 + 2 :=
  ⟨calculate_dominant_planet_eq ps hd hnd hrul,
   fun x hx => pymax_first_max _ x hx,
   demo_score_mars⟩

/-- Witness for C8: in the demonstration chart (Aries rising, equal houses,
Sun 130°, Moon 250°, Mars 10°) Mars is dominant with score 14. -/
theorem dominant_planet_score_spec_witness :
    calculate_dominant_planet demoChart demoHD = some ("Mars", 14) := by
  have h := (dominant_planet_score_spec demoChart demoHD (by decide) (by decide)).1
  rw [h, demo_scores_map]
  decide

/-! ### C7: missing catalog / absent body -/

theorem scanAstorb_none (n : ℤ) : ∀ lines : List String,
    (∀ line ∈ lines, lineNumber line ≠ some n) → scanAstorb n lines = none := by
  intro lines
  induction lines with
  | nil => intro _; rfl
  | cons line rest ih =>
    intro h
    rw [scanAstorb]
    cases hl : lineNumber line with
    | none => exact ih fun l hl' => h l (List.mem_cons_of_mem _ hl')
    | some num =>
      have hne : ¬num = n := fun he => h line (List.mem_cons_self _ _) (he ▸ hl)
      show (if num = n then
          (match parseOrbLine line with
          | some el => some el
          | none => scanAstorb n rest)
        else scanAstorb n rest) = none
      rw [if_neg hne]
      exact ih fun l hl' => h l (List.mem_cons_of_mem _ hl')

/-- **C7.** If the orbital catalog is missing/unreadable (`none`), or the
requested body number appears on no usable catalog line, the asteroid
propagator returns `none` (no position) instead of raising, for every
requested body number and Julian date. -/
theorem asteroid_missing_catalog_none (asteroid_number : ℤ) (jd : ℝ)
    (catalog : Option (List String)) :
    (catalog = none → calculate_asteroid asteroid_number jd catalog = none) ∧
    (∀ lines, catalog = some lines →
      (∀ line ∈ lines, lineNumber line ≠ some asteroid_number) →
      calculate_asteroid asteroid_number jd catalog = none) := by
  constructor
  · rintro rfl
    rfl
  · rintro lines rfl habs
    have h : parse_astorb_for_asteroid asteroid_number (some lines) = none :=
      scanAstorb_none asteroid_number lines habs
    rw [calculate_asteroid, h]

/-- Witness for C7: a missing catalog yields no position for asteroid 1. -/
theorem asteroid_missing_catalog_none_witness :
    calculate_asteroid 1 0 none = none :=
  (asteroid_missing_catalog_none 1 0 none).1 rfl

/-! ### C6: Kepler propagator round-trip at epoch -/

theorem pymodR_bounds (x m : ℝ) (hm : 0 < m) : 0 ≤ pymodR x m ∧ pymodR x m < m := by
  have hm' : m ≠ 0 := ne_of_gt hm
  have hfract : pymodR x m = m * Int.fract (x / m) := by
    rw [pymodR, Int.fract]
    field_simp
  constructor
  · rw [hfract]
    exact mul_nonneg (le_of_lt hm) (Int.fract_nonneg _)
  · rw [hfract]
    calc m * Int.fract (x / m) < m * 1 := mul_lt_mul_of_pos_left (Int.fract_lt_one _) hm
      _ = m := mul_one m

theorem pymodR_sub (x m : ℝ) : x - pymodR x m = m * ⌊x / m⌋ := by
  rw [pymodR]
  ring

theorem newtonLoop_zero_ecc_aux (M : ℝ) (fuel : ℕ) : newtonLoop 0 M (fuel + 1) M = some M := by
  have hstep : newtonStep 0 M M = M := by
    rw [newtonStep]
    ring
  rw [newtonLoop]
  rw [if_neg (by norm_num : ¬((1 : ℝ) - 0 * Real.cos M = 0))]
  show (if |newtonStep 0 M M - M| < 1e-8 then some M
    else newtonLoop 0 M fuel (newtonStep 0 M M)) = some M
  rw [hstep, if_pos (by rw [sub_self, abs_zero]; norm_num : |(M : ℝ) - M| < (1e-8 : ℝ))]

theorem newtonLoop_zero_ecc (M : ℝ) : newtonLoop 0 M 10 M = some M :=
  newtonLoop_zero_ecc_aux M 9

theorem atan2_cos_sin_Ioc (θ : ℝ) (h : θ ∈ Set.Ioc (-Real.pi) Real.pi) :
    atan2 (Real.sin θ) (Real.cos θ) = θ := by
  rw [atan2]
  have hmk : (⟨Real.cos θ, Real.sin θ⟩ : ℂ) =
      Complex.cos θ + Complex.sin θ * Complex.I := by
    rw [Complex.mk_eq_add_mul_I, Complex.ofReal_cos, Complex.ofReal_sin]
  rw [hmk]
  exact Complex.arg_cos_add_sin_mul_I h

theorem atan2_scale (a φ : ℝ) (ha : 0 < a) :
    atan2 (a * Real.sin φ) (a * Real.cos φ) = atan2 (Real.sin φ) (Real.cos φ) := by
  rw [atan2, atan2]
  have hmk : (⟨a * Real.cos φ, a * Real.sin φ⟩ : ℂ) =
      (a : ℂ) * ⟨Real.cos φ, Real.sin φ⟩ := by
    apply Complex.ext
    · simp [Complex.mul_re]
    · simp [Complex.mul_im]
  rw [hmk]
  exact Complex.arg_real_mul _ ha

theorem atan2_cos_sin_shift (φ : ℝ) :
    ∃ k : ℤ, atan2 (Real.sin φ) (Real.cos φ) = φ - 2 * Real.pi * k ∧
      atan2 (Real.sin φ) (Real.cos φ) ∈ Set.Ioc (-Real.pi) Real.pi := by
  set ψ := toIocMod Real.two_pi_pos (-Real.pi) φ with hψdef
  set k := toIocDiv Real.two_pi_pos (-Real.pi) φ with hkdef
  have hψmem := toIocMod_mem_Ioc Real.two_pi_pos (-Real.pi) φ
  have hψmem' : ψ ∈ Set.Ioc (-Real.pi) Real.pi := by
    have h2 : -Real.pi + 2 * Real.pi = Real.pi := by ring
    rw [← hψdef] at hψmem
    rwa [h2] at hψmem
  have hsub : φ - ψ = (k : ℝ) * (2 * Real.pi) := by
    have := self_sub_toIocMod Real.two_pi_pos (-Real.pi) φ
    rw [zsmul_eq_mul] at this
    exact this
  have hφ : φ = ψ + (k : ℝ) * (2 * Real.pi) := by linarith
  have hc : Real.cos φ = Real.cos ψ := by
    rw [hφ]
    exact Real.cos_add_int_mul_two_pi _ _
  have hs : Real.sin φ = Real.sin ψ := by
    rw [hφ]
    exact Real.sin_add_int_mul_two_pi _ _
  refine ⟨k, ?_, ?_⟩
  · rw [hc, hs, atan2_cos_sin_Ioc _ hψmem']
    linarith
  · rw [hc, hs, atan2_cos_sin_Ioc _ hψmem']
    exact hψmem'

theorem interval_rep_unique (x y : ℝ) (hx0 : 0 ≤ x) (hx1 : x < 360) (hy0 : 0 ≤ y)
    (hy1 : y < 360) (k : ℤ) (h : x - y = 360 * k) : x = y := by
  have habs : |x - y| < 360 := by
    rw [abs_sub_lt_iff]
    constructor <;> linarith
  have hk : |(k : ℝ)| < 1 := by
    rw [h, abs_mul, (by norm_num : |(360 : ℝ)| = 360)] at habs
    linarith
  have hk2 : (-1 : ℝ) < (k : ℝ) ∧ ((k : ℝ) : ℝ) < 1 := abs_lt.mp hk
  have hk' : k = 0 := by
    have h1 : (-1 : ℤ) < k := by exact_mod_cast hk2.1
    have h2 : k < 1 := by exact_mod_cast hk2.2
    omega
  rw [hk'] at h
  push_cast at h
  linarith

theorem kepler_e0_eval (el : OrbitalElements) (he : el.eccentricity = 0)
    (ha : 0 < el.semi_major_axis) :
    calculate_position_from_elements (el.epoch : ℝ) el =
      some
        (if degR (atan2
            (((el.semi_major_axis : ℝ) * Real.cos (pymodR (radR (el.mean_anomaly : ℝ)) (2 * Real.pi)) *
                Real.cos (radR (el.arg_perihelion : ℝ)) -
              (el.semi_major_axis : ℝ) * Real.sin (pymodR (radR (el.mean_anomaly : ℝ)) (2 * Real.pi)) *
                Real.sin (radR (el.arg_perihelion : ℝ))) *
              Real.sin (radR (el.long_asc_node : ℝ)) +
            ((el.semi_major_axis : ℝ) * Real.cos (pymodR (radR (el.mean_anomaly : ℝ)) (2 * Real.pi)) *
                Real.sin (radR (el.arg_perihelion : ℝ)) +
              (el.semi_major_axis : ℝ) * Real.sin (pymodR (radR (el.mean_anomaly : ℝ)) (2 * Real.pi)) *
                Real.cos (radR (el.arg_perihelion : ℝ))) *
              Real.cos (radR (el.inclination : ℝ)) * Real.cos (radR (el.long_asc_node : ℝ)))
            (((el.semi_major_axis : ℝ) * Real.cos (pymodR (radR (el.mean_anomaly : ℝ)) (2 * Real.pi)) *
                Real.cos (radR (el.arg_perihelion : ℝ)) -
              (el.semi_major_axis : ℝ) * Real.sin (pymodR (radR (el.mean_anomaly : ℝ)) (2 * Real.pi)) *
                Real.sin (radR (el.arg_perihelion : ℝ))) *
              Real.cos (radR (el.long_asc_node : ℝ)) -
            ((el.semi_major_axis : ℝ) * Real.cos (pymodR (radR (el.mean_anomaly : ℝ)) (2 * Real.pi)) *
                Real.sin (radR (el.arg_perihelion : ℝ)) +
              (el.semi_major_axis : ℝ) * Real.sin (pymodR (radR (el.mean_anomaly : ℝ)) (2 * Real.pi)) *
                Real.cos (radR (el.arg_perihelion : ℝ))) *
              Real.cos (radR (el.inclination : ℝ)) * Real.sin (radR (el.long_asc_node : ℝ)))) < 0
        then
          degR (atan2
            (((el.semi_major_axis : ℝ) * Real.cos (pymodR (radR (el.mean_anomaly : ℝ)) (2 * Real.pi)) *
                Real.cos (radR (el.arg_perihelion : ℝ)) -
              (el.semi_major_axis : ℝ) * Real.sin (pymodR (radR (el.mean_anomaly : ℝ)) (2 * Real.pi)) *
                Real.sin (radR (el.arg_perihelion : ℝ))) *
              Real.sin (radR (el.long_asc_node : ℝ)) +
            ((el.semi_major_axis : ℝ) * Real.cos (pymodR (radR (el.mean_anomaly : ℝ)) (2 * Real.pi)) *
                Real.sin (radR (el.arg_perihelion : ℝ)) +
              (el.semi_major_axis : ℝ) * Real.sin (pymodR (radR (el.mean_anomaly : ℝ)) (2 * Real.pi)) *
                Real.cos (radR (el.arg_perihelion : ℝ))) *
              Real.cos (radR (el.inclination : ℝ)) * Real.cos (radR (el.long_asc_node : ℝ)))
            (((el.semi_major_axis : ℝ) * Real.cos (pymodR (radR (el.mean_anomaly : ℝ)) (2 * Real.pi)) *
                Real.cos (radR (el.arg_perihelion : ℝ)) -
              (el.semi_major_axis : ℝ) * Real.sin (pymodR (radR (el.mean_anomaly : ℝ)) (2 * Real.pi)) *
                Real.sin (radR (el.arg_perihelion : ℝ))) *
              Real.cos (radR (el.long_asc_node : ℝ)) -
            ((el.semi_major_axis : ℝ) * Real.cos (pymodR (radR (el.mean_anomaly : ℝ)) (2 * Real.pi)) *
                Real.sin (radR (el.arg_perihelion : ℝ)) +
              (el.semi_major_axis : ℝ) * Real.sin (pymodR (radR (el.mean_anomaly : ℝ)) (2 * Real.pi)) *
                Real.cos (radR (el.arg_perihelion : ℝ))) *
              Real.cos (radR (el.inclination : ℝ)) * Real.sin (radR (el.long_asc_node : ℝ)))) + 360
        else
          degR (atan2
            (((el.semi_major_axis : ℝ) * Real.cos (pymodR (radR (el.mean_anomaly : ℝ)) (2 * Real.pi)) *
                Real.cos (radR (el.arg_perihelion : ℝ)) -
              (el.semi_major_axis : ℝ) * Real.sin (pymodR (radR (el.mean_anomaly : ℝ)) (2 * Real.pi)) *
                Real.sin (radR (el.arg_perihelion : ℝ))) *
              Real.sin (radR (el.long_asc_node : ℝ)) +
            ((el.semi_major_axis : ℝ) * Real.cos (pymodR (radR (el.mean_anomaly : ℝ)) (2 * Real.pi)) *
                Real.sin (radR (el.arg_perihelion : ℝ)) +
              (el.semi_major_axis : ℝ) * Real.sin (pymodR (radR (el.mean_anomaly : ℝ)) (2 * Real.pi)) *
                Real.cos (radR (el.arg_perihelion : ℝ))) *
              Real.cos (radR (el.inclination : ℝ)) * Real.cos (radR (el.long_asc_node : ℝ)))
            (((el.semi_major_axis : ℝ) * Real.cos (pymodR (radR (el.mean_anomaly : ℝ)) (2 * Real.pi)) *
                Real.cos (radR (el.arg_perihelion : ℝ)) -
              (el.semi_major_axis : ℝ) * Real.sin (pymodR (radR (el.mean_anomaly : ℝ)) (2 * Real.pi)) *
                Real.sin (radR (el.arg_perihelion : ℝ))) *
              Real.cos (radR (el.long_asc_node : ℝ)) -
            ((el.semi_major_axis : ℝ) * Real.cos (pymodR (radR (el.mean_anomaly : ℝ)) (2 * Real.pi)) *
                Real.sin (radR (el.arg_perihelion : ℝ)) +
              (el.semi_major_axis : ℝ) * Real.sin (pymodR (radR (el.mean_anomaly : ℝ)) (2 * Real.pi)) *
                Real.cos (radR (el.arg_perihelion : ℝ))) *
              Real.cos (radR (el.inclination : ℝ)) * Real.sin (radR (el.long_asc_node : ℝ))))) := by
  have ha' : (0 : ℝ) < (el.semi_major_axis : ℝ) := by exact_mod_cast ha
  have hMb := pymodR_bounds (radR (el.mean_anomaly : ℝ)) (2 * Real.pi) Real.two_pi_pos
  have hhalf : pymodR (radR (el.mean_anomaly : ℝ)) (2 * Real.pi) / 2 ∈
      Set.Ioc (-Real.pi) Real.pi := by
    constructor
    · have := Real.pi_pos
      linarith [hMb.1]
    · linarith [hMb.2]
  have hatan : atan2 (Real.sin (pymodR (radR (el.mean_anomaly : ℝ)) (2 * Real.pi) / 2))
      (Real.cos (pymodR (radR (el.mean_anomaly : ℝ)) (2 * Real.pi) / 2)) =
      pymodR (radR (el.mean_anomaly : ℝ)) (2 * Real.pi) / 2 :=
    atan2_cos_sin_Ioc _ hhalf
  have hnu : 2 * atan2 (Real.sin (pymodR (radR (el.mean_anomaly : ℝ)) (2 * Real.pi) / 2))
      (Real.cos (pymodR (radR (el.mean_anomaly : ℝ)) (2 * Real.pi) / 2)) =
      pymodR (radR (el.mean_anomaly : ℝ)) (2 * Real.pi) := by
    rw [hatan]
    ring
  simp only [calculate_position_from_elements, he, Rat.cast_zero, sub_self, mul_zero,
    add_zero, zero_mul, sub_zero, Real.sqrt_one, one_mul, mul_one]
  rw [if_neg (not_le.mpr ha')]
  rw [newtonLoop_zero_ecc]
  simp only [if_neg (show ¬((0 : ℝ) < -1 ∨ (1 : ℝ) < 0) by norm_num)]
  rw [hnu]

/-- **C6 amended.** For a circular orbit (`e = 0`) that also lies in the
ecliptic plane (`inclination = 0`, which the original claim omits) with a
positive semi-major axis, propagating to `JD = epoch` returns exactly
`(meanAnomaly + argPerihelion + longAscNode) mod 360` (floats idealised as
reals, so "within floating-point tolerance" becomes exact equality). -/
theorem kepler_epoch_roundtrip_zero_inclination (el : OrbitalElements)
    (he : el.eccentricity = 0) (hi : el.inclination = 0) (ha : 0 < el.semi_major_axis) :
    calculate_position_from_elements (el.epoch : ℝ) el =
      some (pymodR ((el.mean_anomaly : ℝ) + (el.arg_perihelion : ℝ) + (el.long_asc_node : ℝ))
        360) := by
  have hpi := Real.pi_pos
  have hpine := Real.pi_ne_zero
  have ha' : (0 : ℝ) < (el.semi_major_axis : ℝ) := by exact_mod_cast ha
  have hrad0 : radR ((0 : ℚ) : ℝ) = 0 := by
    rw [radR]
    push_cast
    ring
  rw [kepler_e0_eval el he ha]
  simp only [hi, hrad0, Real.cos_zero, mul_one]
  have hx : ((el.semi_major_axis : ℝ) * Real.cos (pymodR (radR (el.mean_anomaly : ℝ)) (2 * Real.pi)) *
        Real.cos (radR (el.arg_perihelion : ℝ)) -
      (el.semi_major_axis : ℝ) * Real.sin (pymodR (radR (el.mean_anomaly : ℝ)) (2 * Real.pi)) *
        Real.sin (radR (el.arg_perihelion : ℝ))) *
      Real.cos (radR (el.long_asc_node : ℝ)) -
    ((el.semi_major_axis : ℝ) * Real.cos (pymodR (radR (el.mean_anomaly : ℝ)) (2 * Real.pi)) *
        Real.sin (radR (el.arg_perihelion : ℝ)) +
      (el.semi_major_axis : ℝ) * Real.sin (pymodR (radR (el.mean_anomaly : ℝ)) (2 * Real.pi)) *
        Real.cos (radR (el.arg_perihelion : ℝ))) *
      Real.sin (radR (el.long_asc_node : ℝ)) =
    (el.semi_major_axis : ℝ) * Real.cos (pymodR (radR (el.mean_anomaly : ℝ)) (2 * Real.pi) +
      radR (el.arg_perihelion : ℝ) + radR (el.long_asc_node : ℝ)) := by
    simp only [Real.cos_add, Real.sin_add]
    ring
  have hy : ((el.semi_major_axis : ℝ) * Real.cos (pymodR (radR (el.mean_anomaly : ℝ)) (2 * Real.pi)) *
        Real.cos (radR (el.arg_perihelion : ℝ)) -
      (el.semi_major_axis : ℝ) * Real.sin (pymodR (radR (el.mean_anomaly : ℝ)) (2 * Real.pi)) *
        Real.sin (radR (el.arg_perihelion : ℝ))) *
      Real.sin (radR (el.long_asc_node : ℝ)) +
    ((el.semi_major_axis : ℝ) * Real.cos (pymodR (radR (el.mean_anomaly : ℝ)) (2 * Real.pi)) *
        Real.sin (radR (el.arg_perihelion : ℝ)) +
      (el.semi_major_axis : ℝ) * Real.sin (pymodR (radR (el.mean_anomaly : ℝ)) (2 * Real.pi)) *
        Real.cos (radR (el.arg_perihelion : ℝ))) *
      Real.cos (radR (el.long_asc_node : ℝ)) =
    (el.semi_major_axis : ℝ) * Real.sin (pymodR (radR (el.mean_anomaly : ℝ)) (2 * Real.pi) +
      radR (el.arg_perihelion : ℝ) + radR (el.long_asc_node : ℝ)) := by
    simp only [Real.cos_add, Real.sin_add]
    ring
  rw [hx, hy, atan2_scale _ _ ha']
  obtain ⟨k, hk, hmem⟩ := atan2_cos_sin_shift (pymodR (radR (el.mean_anomaly : ℝ)) (2 * Real.pi) +
    radR (el.arg_perihelion : ℝ) + radR (el.long_asc_node : ℝ))
  rw [hk] at hmem ⊢
  have hLval : degR (pymodR (radR (el.mean_anomaly : ℝ)) (2 * Real.pi) +
      radR (el.arg_perihelion : ℝ) + radR (el.long_asc_node : ℝ) - 2 * Real.pi * k) =
      ((el.mean_anomaly : ℝ) + (el.arg_perihelion : ℝ) + (el.long_asc_node : ℝ)) -
        360 * ((⌊radR (el.mean_anomaly : ℝ) / (2 * Real.pi)⌋ : ℝ) + (k : ℝ)) := by
    rw [pymodR, degR, radR, radR, radR]
    field_simp
    ring
  have hLb1 : (-180 : ℝ) < degR (pymodR (radR (el.mean_anomaly : ℝ)) (2 * Real.pi) +
      radR (el.arg_perihelion : ℝ) + radR (el.long_asc_node : ℝ) - 2 * Real.pi * k) := by
    rw [degR, lt_div_iff₀ hpi]
    have := hmem.1
    nlinarith
  have hLb2 : degR (pymodR (radR (el.mean_anomaly : ℝ)) (2 * Real.pi) +
      radR (el.arg_perihelion : ℝ) + radR (el.long_asc_node : ℝ) - 2 * Real.pi * k) ≤ 180 := by
    rw [degR, div_le_iff₀ hpi]
    have := hmem.2
    nlinarith
  have hpm := pymodR_bounds ((el.mean_anomaly : ℝ) + (el.arg_perihelion : ℝ) +
    (el.long_asc_node : ℝ)) 360 (by norm_num)
  have hpmsub := pymodR_sub ((el.mean_anomaly : ℝ) + (el.arg_perihelion : ℝ) +
    (el.long_asc_node : ℝ)) 360
  congr 1
  by_cases hL : degR (pymodR (radR (el.mean_anomaly : ℝ)) (2 * Real.pi) +
      radR (el.arg_perihelion : ℝ) + radR (el.long_asc_node : ℝ) - 2 * Real.pi * k) < 0
  · rw [if_pos hL]
    apply interval_rep_unique _ _ (by linarith) (by linarith) hpm.1 hpm.2
      (⌊((el.mean_anomaly : ℝ) + (el.arg_perihelion : ℝ) + (el.long_asc_node : ℝ)) / 360⌋ -
        ⌊radR (el.mean_anomaly : ℝ) / (2 * Real.pi)⌋ - k + 1)
    push_cast
    rw [hLval]
    linarith
  · rw [if_neg hL]
    apply interval_rep_unique _ _ (by linarith) (by linarith) hpm.1 hpm.2
      (⌊((el.mean_anomaly : ℝ) + (el.arg_perihelion : ℝ) + (el.long_asc_node : ℝ)) / 360⌋ -
        ⌊radR (el.mean_anomaly : ℝ) / (2 * Real.pi)⌋ - k)
    push_cast
    rw [hLval]
    linarith

/-- **C6 counterexample.** The claim as stated (any `e = 0` orbit) fails for
an inclined circular orbit: for `cexElements` (`e = 0`, `i = 90°`,
`M₀ = 90°`, `ω = Ω = 0`, `a = 1`) the propagator at `JD = epoch` returns 0°,
not `(90 + 0 + 0) mod 360 = 90°`, because the rotation through the
inclination changes the ecliptic longitude. -/
theorem kepler_epoch_roundtrip_inclination_cex :
    calculate_position_from_elements ((cexElements.epoch : ℝ)) cexElements ≠
      some (pymodR ((cexElements.mean_anomaly : ℝ) + (cexElements.arg_perihelion : ℝ) +
        (cexElements.long_asc_node : ℝ)) 360) := by
  have hpi := Real.pi_pos
  have h90 : radR (90 : ℝ) = Real.pi / 2 := by
    rw [radR]
    ring
  have h0 : radR (0 : ℝ) = 0 := by
    rw [radR]
    ring
  have hM : pymodR (Real.pi / 2) (2 * Real.pi) = Real.pi / 2 := by
    rw [pymodR]
    have hq : Real.pi / 2 / (2 * Real.pi) = 1 / 4 := by
      rw [div_div]
      rw [show (2 : ℝ) * (2 * Real.pi) = Real.pi * 4 by ring]
      rw [div_mul_eq_div_div]
      rw [div_self Real.pi_ne_zero]
    rw [hq]
    norm_num
  have hatan00 : atan2 0 0 = 0 := by
    rw [atan2]
    have hz : (⟨0, 0⟩ : ℂ) = 0 := Complex.ext (by simp) (by simp)
    rw [hz]
    exact Complex.arg_zero
  have hdeg0 : degR 0 = 0 := by
    rw [degR]
    simp
  rw [kepler_e0_eval cexElements rfl (by norm_num [cexElements])]
  simp only [cexElements, Rat.cast_one, Rat.cast_zero, Rat.cast_ofNat]
  simp only [h90, h0, hM, Real.cos_pi_div_two, Real.sin_pi_div_two, Real.cos_zero,
    Real.sin_zero, one_mul, mul_one, mul_zero, zero_mul, add_zero, zero_add, sub_zero]
  rw [hatan00, hdeg0]
  rw [if_neg (lt_irrefl (0 : ℝ))]
  have hrhs : pymodR (90 : ℝ) 360 = 90 := by
    rw [pymodR]
    norm_num
  rw [hrhs]
  simp

/-- Witness for C6-amended: an equatorial circular orbit (`M₀ = 10°`,
`ω = 20°`, `Ω = 30°`) propagated to its epoch. -/
theorem kepler_epoch_roundtrip_zero_inclination_witness :
    calculate_position_from_elements ((demoElements.epoch : ℝ)) demoElements =
      some (pymodR ((demoElements.mean_anomaly : ℝ) + (demoElements.arg_perihelion : ℝ) +
        (demoElements.long_asc_node : ℝ)) 360) :=
  kepler_epoch_roundtrip_zero_inclination demoElements rfl rfl (by norm_num [demoElements])
